import Mathlib

/-!
Verification of the SumTablets transliteration-normalization and
glyph-resolution pipeline.

The definitions below are a shallow embedding of the Python sources:
  * `5_add_glyphs.py`            (morpheme segmentation and glyph resolution),
  * `src/models/cdl.py` and `src/models/text.py` (the CDL tree walker),
  * `src/scripts/3_clean_up_transliterations.py` (the enclosure normalizer).

Python strings are modelled as Lean `String`/`List Char`; the concrete
regular expressions of the source are implemented as explicit scanners that
reproduce the leftmost, non-overlapping matching m of the corresponding
pattern; `dict`s are association lists; the process-wide observed-readings
accumulator is an explicit counting function threaded through the code.
Scanners take a fuel argument; every caller passes `length + 1`, which is
sufficient because every step consumes at least one character.
-/

set_option maxRecDepth 4000

namespace SumTablets

/-! ## Basic string machinery (Python `str` operations) -/

/-- Is `pat` a prefix of `l`?  Used to implement `str.replace` and substring
tests. -/
def startsWithL : List Char → List Char → Bool
  | [], _ => true
  | _ :: _, [] => false
  | p :: ps, c :: cs => if p = c then startsWithL ps cs else false

/-- Scanner behind `pyReplace`: Python `str.replace`, replacing every
non-overlapping occurrence of `pat` left to right. -/
def pyReplaceGo (pat rep : List Char) : Nat → List Char → List Char
  | _, [] => []
  | 0, l => l
  | fuel + 1, c :: cs =>
    if startsWithL pat (c :: cs) && !pat.isEmpty then
      rep ++ pyReplaceGo pat rep fuel (List.drop pat.length (c :: cs))
    else
      c :: pyReplaceGo pat rep fuel cs

/-- Python `s.replace(pat, rep)`. -/
def pyReplace (s pat rep : String) : String :=
  ⟨pyReplaceGo pat.toList rep.toList (s.length + 1) s.toList⟩

/-- Helper for `containsSub`. -/
def containsSubGo (pat : List Char) : List Char → Bool
  | [] => startsWithL pat []
  | c :: cs => startsWithL pat (c :: cs) || containsSubGo pat cs

/-- Python `pat in s` (substring test). -/
def containsSub (s pat : String) : Bool :=
  containsSubGo pat.toList s.toList

/-- Python `s.split(sep)` for a single-character separator (keeps empty
segments, as Python does). -/
def splitCharL (sep : Char) : List Char → List (List Char)
  | [] => [[]]
  | c :: cs =>
    match splitCharL sep cs with
    | [] => if c = sep then [[], []] else [[c]]
    | h :: t => if c = sep then [] :: h :: t else (c :: h) :: t

/-- Whitespace characters stripped by Python `str.strip`. -/
def isSpaceChar (c : Char) : Bool :=
  c = ' ' || c = '\n' || c = '\t' || c = '\r'

/-- Python `s.strip()`. -/
def pyStrip (s : String) : String :=
  ⟨((s.toList.dropWhile isSpaceChar).reverse.dropWhile isSpaceChar).reverse⟩

/-- First-match association-list lookup (Python `dict` membership/indexing;
the embedded tables never repeat a key). -/
def lookupA {β : Type} : List (String × β) → String → Option β
  | [], _ => none
  | (k, v) :: rest, s => if k = s then some v else lookupA rest s

/-- Extended `Char.toLower` covering the non-ASCII cased letters that occur
in the sign tables; models Python `str.lower` on this data. -/
def lowerChar (c : Char) : Char :=
  if c = 'Š' then 'š'
  else if c = 'Ŋ' then 'ŋ'
  else if c = 'Ḫ' then 'ḫ'
  else c.toLower

/-- Python `s.lower()` on the alphabet used by this corpus. -/
def py_lower (s : String) : String :=
  ⟨s.toList.map lowerChar⟩

/-- Cased characters, restricted to the alphabet used by this corpus;
models the casedness test of Python `str.isupper`. -/
def casedChar (c : Char) : Bool :=
  c.isUpper || c.isLower || c = 'Š' || c = 'š' || c = 'Ŋ' || c = 'ŋ' ||
    c = 'Ḫ' || c = 'ḫ'

/-- Upper-case characters, restricted to the same alphabet. -/
def upperCased (c : Char) : Bool :=
  c.isUpper || c = 'Š' || c = 'Ŋ' || c = 'Ḫ'

/-- Python `s.isupper()`: at least one cased character and every cased
character upper-case. -/
def py_isupper (s : String) : Bool :=
  s.toList.any casedChar && s.toList.all (fun c => !casedChar c || upperCased c)

/-! ## Constants of `5_add_glyphs.py` -/

/-- `SPECIAL_TOKENS` of `5_add_glyphs.py` (a Python `set`, embedded as the
list of its elements). -/
def SPECIAL_TOKENS : List String :=
  ["<SURFACE>", "<COLUMN>", "<BLANK_SPACE>", "<RULING>", "...", "\n", "<unk>"]

/-- `UNK` of `5_add_glyphs.py`. -/
def UNK : String := "<unk>"

/-- `NUMBERS_TO_READINGS` of `5_add_glyphs.py`. -/
def NUMBERS_TO_READINGS : List (String × String) :=
  [("1/2", "1/2(diš)"), ("1/3", "1/3(diš)"), ("1/4", "1/3(iku)"),
   ("2/3", "2/3(diš)"), ("5/6", "5/6(diš)"),
   ("1", "1(diš)"), ("2", "2(diš)"), ("3", "3(diš)"), ("4", "4(diš)"),
   ("5", "5(diš)"), ("6", "6(diš)"), ("7", "7(diš)"), ("8", "8(diš)"),
   ("9", "9(diš)"), ("10", "1(u)"), ("11", "1(u) 1(diš)"),
   ("12", "1(u) 2(diš)"), ("14", "1(u) 4(diš)"), ("18", "1(u) 8(diš)"),
   ("20", "2(u)"), ("21", "2(u) 1(diš)"), ("23", "2(u) 3(diš)"),
   ("24", "2(u) 4(diš)"), ("25", "2(u) 5(diš)"), ("30", "3(u)"),
   ("36", "3(u) 6(diš)"), ("40", "4(u)"), ("50", "5(u)"), ("60", "6(u)"),
   ("600", "1(gešʾu)"), ("900", "1(gešʾu) 5(geš₂)"), ("3600", "1(šarʾu@c)"),
   ("36000", "1(šar₂)")]

/-- `SWAP_GLYPH_NAMES` of `5_add_glyphs.py`. -/
def SWAP_GLYPH_NAMES : List (String × String) :=
  [("UN", "KALAM@g"),
   ("ŠITA₂", "|ŠITA.GIŠ|"),
   ("DE₂", "|UMUM×KASKAL|"),
   ("|ŠU₂.3xAN|", "|ŠU₂.3×AN|"),
   ("|ŠU₂.DUN₃@g@g@s|", "|ŠU₂.DUN₃|"),
   ("LAK212", "|A.TU.GABA.LIŠ|")]

/-- The two sign lookup tables read from JSON by `5_add_glyphs.py`
(`READING_TO_GLYPH_NAME` and `GLYPH_NAME_TO_UNICODE`); they are external
inputs of the resolver, so they are a parameter of the embedding. -/
structure Tables where
  reading_to_glyph_name : List (String × List String)
  glyph_name_to_unicode : List (String × String)
deriving Repr

/-- `GLYPH_NAMES = set(GLYPH_NAME_TO_UNICODE.keys())`. -/
def glyph_names (t : Tables) : List String :=
  t.glyph_name_to_unicode.map Prod.fst

/-- Append `reading` to the entry of `name` (the loop body building
`GLYPH_NAME_TO_READINGS`). -/
def addReading (m : List (String × List String)) (name reading : String) :
    List (String × List String) :=
  match m with
  | [] => [(name, [reading])]
  | (k, v) :: rest =>
    if k = name then (k, v ++ [reading]) :: rest
    else (k, v) :: addReading rest name reading

/-- `GLYPH_NAME_TO_READINGS` of `5_add_glyphs.py`: invert
`READING_TO_GLYPH_NAME`, then deduplicate each list (`list(set(v))`;
`eraseDups` keeps one representative per reading, which is all the code
ever relies on — only lengths and the sole element of singleton lists are
inspected). -/
def glyph_name_to_readings (t : Tables) : List (String × List String) :=
  (t.reading_to_glyph_name.foldl
      (fun m p => p.2.foldl (fun m2 n => addReading m2 n p.1) m) []).map
    (fun p => (p.1, p.2.eraseDups))

/-! ## Morpheme segmentation (`_split_wordform_into_morphemes`) -/

/-- Scanner for the minimal-span regex `\{.*?\}`: find the first `}` with no
intervening newline. Returns (characters before `}`, rest after `}`). -/
def findCloseBraceGo : List Char → Option (List Char × List Char)
  | [] => none
  | c :: cs =>
    if c = '\x7d' then some ([], cs)
    else if c = '\n' then none
    else
      match findCloseBraceGo cs with
      | some (inner, rest) => some (c :: inner, rest)
      | none => none

/-- Prepend a character to the first segment of a split result. -/
def consChar (c : Char) : List (List Char) → List (List Char)
  | [] => [[c]]
  | h :: t => (c :: h) :: t

/-- Python `re.split(r"(\{.*?\})", s)`: split around determinative braces,
keeping each brace span as a segment of its own. -/
def splitCurlyGo : Nat → List Char → List (List Char)
  | _, [] => [[]]
  | 0, l => [l]
  | fuel + 1, c :: cs =>
    if c = '\x7b' then
      match findCloseBraceGo cs with
      | some (inner, rest) =>
        [] :: ('\x7b' :: (inner ++ ['\x7d'])) :: splitCurlyGo fuel rest
      | none => consChar c (splitCurlyGo fuel cs)
    else consChar c (splitCurlyGo fuel cs)

/-- The lookahead `(?![^(]*\))` of the hyphen-split pattern: true when a `)`
occurs after the current position before any `(`. -/
def lookNoParenClose : List Char → Bool
  | [] => false
  | c :: cs =>
    if c = ')' then true
    else if c = '(' then false
    else lookNoParenClose cs

/-- Python `re.split(r"-(?![^(]*\))", s)`: split on hyphens that are not
inside parentheses. -/
def splitHyphenNoParen : List Char → List (List Char)
  | [] => [[]]
  | c :: cs =>
    let r := splitHyphenNoParen cs
    if c = '-' && !lookNoParenClose cs then [] :: r
    else
      match r with
      | [] => [[c]]
      | h :: t => (c :: h) :: t

/-- `_split_wordform_into_morphemes` of `5_add_glyphs.py`. -/
def split_wordform_into_morphemes (wf : String) : List String :=
  let wf1 :=
    match lookupA NUMBERS_TO_READINGS wf with
    | some r => r
    | none =>
      -- cases like "7-bi": wf.split("-", 1)[0]
      let head : List Char := wf.toList.takeWhile (fun c => c ≠ '-')
      let tail : List Char := wf.toList.dropWhile (fun c => c ≠ '-')
      match tail with
      | _ :: tl =>
        (match lookupA NUMBERS_TO_READINGS ⟨head⟩ with
         | some r => r ++ "-" ++ (⟨tl⟩ : String)
         | none => wf)
      | [] => wf
  let segs1 := splitCurlyGo (wf1.length + 1) wf1.toList
  -- [s.split(" ") for s in split_ if s], flattened, dropping empties
  let segs2 :=
    ((segs1.filter (fun l => l ≠ [])).map (splitCharL ' ')).flatten.filter
      (fun l => l ≠ [])
  -- [re.split(r"-(?![^(]*\))", s) for s in split_ if s], flattened
  let segs3 :=
    ((segs2.filter (fun l => l ≠ [])).map splitHyphenNoParen).flatten.filter
      (fun l => l ≠ [])
  segs3.map (fun l => (⟨l⟩ : String))

/-! ## Per-morpheme candidate lookup (`_get_morpheme_glyph_names`) -/

/-- The regex `^\d+(/\d+)?(\.\d+)?(\s*\([^)]+\))?$` (`NUMERIC_PATTERN`). -/
def numericMatch (l : List Char) : Bool :=
  let d1 := l.takeWhile Char.isDigit
  let r1 := l.dropWhile Char.isDigit
  if d1.isEmpty then false
  else
    let r2 : Option (List Char) :=
      match r1 with
      | '/' :: rest =>
        let d2 := rest.takeWhile Char.isDigit
        if d2.isEmpty then none else some (rest.dropWhile Char.isDigit)
      | _ => some r1
    match r2 with
    | none => false
    | some r2v =>
      let r3 : Option (List Char) :=
        match r2v with
        | '.' :: rest =>
          let d3 := rest.takeWhile Char.isDigit
          if d3.isEmpty then none else some (rest.dropWhile Char.isDigit)
        | _ => some r2v
      match r3 with
      | none => false
      | some [] => true
      | some r3v =>
        match r3v.dropWhile isSpaceChar with
        | '(' :: rest =>
          let inner := rest.takeWhile (fun c => c ≠ ')')
          if inner.isEmpty then false
          else
            match rest.dropWhile (fun c => c ≠ ')') with
            | [')'] => true
            | _ => false
        | _ => false

/-- `_get_number_glyph_names` of `5_add_glyphs.py` (the appends to the
`unk_readings_num` diagnostic list are reporting only and are not
modelled). -/
def get_number_glyph_names (t : Tables) (morpheme : String) :
    String × List String :=
  match lookupA t.reading_to_glyph_name morpheme with
  | some gs => (morpheme, gs)
  | none =>
    match lookupA t.reading_to_glyph_name (py_lower morpheme) with
    | some gs => (py_lower morpheme, gs)
    | none =>
      if (glyph_names t).contains morpheme then (morpheme, [morpheme])
      else (morpheme, [])

/-- `morpheme.replace("{", "").replace("}", "")`. -/
def stripBraces (s : String) : String :=
  pyReplace (pyReplace s "\x7b" "") "\x7d" ""

/-- `_get_morpheme_glyph_names` of `5_add_glyphs.py`: the
(display text, candidate sign names) pair for one morpheme.  The appends to
the `unk_readings_*` diagnostic lists are reporting only. -/
def get_morpheme_glyph_names (t : Tables) (morpheme0 : String) :
    String × List String :=
  let morpheme := if morpheme0 = "geš₂" then "ŋeš₂" else morpheme0
  if morpheme = "x" || morpheme = "n" || morpheme = "X" || morpheme = "N" then
    ("...", ["..."])
  else if numericMatch morpheme.toList then
    get_number_glyph_names t morpheme
  else if (glyph_names t).contains morpheme then
    (UNK, [morpheme])
  else
    match lookupA t.reading_to_glyph_name (stripBraces morpheme) with
    | some gs => (morpheme, gs)
    | none =>
      if py_isupper morpheme then
        match lookupA t.reading_to_glyph_name (py_lower morpheme) with
        | some gs => (UNK, gs)
        | none => (UNK, [])
      else if containsSub morpheme "(" && containsSub morpheme ")" then
        match splitCharL '(' morpheme.toList with
        | p0 :: p1 :: _ =>
          let m2 : String := ⟨p0⟩
          let g2 : String := pyReplace ⟨p1⟩ ")" ""
          let step1 : Option (String × List String) :=
            match lookupA t.reading_to_glyph_name m2 with
            | some possible =>
              if possible.length = 1 then some (m2, possible)
              else if possible.contains g2 then some (m2, [g2])
              else none
            | none => none
          match step1 with
          | some r => r
          | none =>
            match lookupA (glyph_name_to_readings t) g2 with
            | some rs =>
              (match rs with
               | [r] => (r, [g2])
               | _ => (morpheme, []))
            | none => (morpheme, [])
        | _ => (morpheme, [])
      else (morpheme, [])

/-! ## Acceptance and glyph lookup (`_get_wordform_glyph_data`) -/

/-- The acceptance step of `_get_wordform_glyph_data`: keep a morpheme only
when it has exactly one candidate sign name, otherwise both the displayed
morpheme and the sign name become `UNK`. -/
def accept_morpheme (m : String) (possible : List String) : String × String :=
  let gname : String :=
    match possible with
    | [g] => g
    | _ => UNK
  let m2 := if gname = UNK then UNK else m
  (m2, gname)

/-- `if glyph_name in SWAP_GLYPH_NAMES: glyph_name = SWAP_GLYPH_NAMES[...]`. -/
def swap_glyph_name (g : String) : String :=
  match lookupA SWAP_GLYPH_NAMES g with
  | some g2 => g2
  | none => g

/-- `_glyph_name_to_unicode` of `5_add_glyphs.py` (the appends to the
`glyph_names_*` diagnostic lists are reporting only). -/
def glyph_name_to_unicode (t : Tables) (gname : String) : String :=
  if SPECIAL_TOKENS.contains gname then gname
  else
    match lookupA t.glyph_name_to_unicode gname with
    | none => UNK
    | some u => if u = "" then UNK else u

/-- The glyph-lookup loop of `_get_wordform_glyph_data` (lines 387-404):
skip accepted sign name `"N"`, apply the swap table, downgrade to the fully
unknown triple when the display is already unknown or the glyph is absent,
empty, or contains the placeholder `X`. -/
def glyph_stage (t : Tables) : List (String × String) → List (String × String × String)
  | [] => []
  | (m, gn) :: rest =>
    if gn = "N" then glyph_stage t rest
    else
      let gn2 := swap_glyph_name gn
      if m = UNK then (UNK, UNK, UNK) :: glyph_stage t rest
      else
        let u := glyph_name_to_unicode t gn2
        if u = UNK || u.toList.contains 'X' then
          (UNK, UNK, UNK) :: glyph_stage t rest
        else (m, gn2, u) :: glyph_stage t rest

/-- `_get_wordform_glyph_data` of `5_add_glyphs.py`. -/
def get_wordform_glyph_data (t : Tables) (wf : String) :
    List (String × String × String) :=
  if SPECIAL_TOKENS.contains wf then [(wf, wf, wf)]
  else
    let morphemes := split_wordform_into_morphemes wf
    let pairs := morphemes.map (get_morpheme_glyph_names t)
    let accepted := pairs.map (fun p => accept_morpheme p.1 p.2)
    glyph_stage t accepted

/-! ## The observed-readings accumulator -/

/-- The accumulator update of `_add_glyphs_to_row` (lines 333-341):
`glyph_to_observed_readings[glyph][morpheme] += 1` for every resolved item
whose displayed morpheme is not a special token.  The nested
`dict`-of-`Counter` is embedded as a counting function on (glyph, morpheme)
pairs. -/
def record_observed (acc : String → String → Nat)
    (data : List (String × String × String)) : String → String → Nat :=
  data.foldl
    (fun a item =>
      if SPECIAL_TOKENS.contains item.1 then a
      else fun g m =>
        if g = item.2.2 && m = item.1 then a g m + 1 else a g m)
    acc

/-! ## Per-row glyph resolution (`_add_glyphs_to_row`) -/

/-- Collapse runs of a single character to one occurrence
(`re.sub(r"\ +", " ")` and `re.sub(r"\-+", "-")`). -/
def collapse_char_runs_go (ch : Char) : Nat → List Char → List Char
  | _, [] => []
  | 0, l => l
  | fuel + 1, c :: cs =>
    if c = ch then ch :: collapse_char_runs_go ch fuel (cs.dropWhile (fun d => d = ch))
    else c :: collapse_char_runs_go ch fuel cs

/-- `re.sub(r"\ +", " ", s)`. -/
def collapse_spaces (s : String) : String :=
  ⟨collapse_char_runs_go ' ' (s.length + 1) s.toList⟩

/-- `_add_glyphs_to_row` of `5_add_glyphs.py`, on the transliteration text
of one row: returns the (transliteration, glyph_names, glyphs) triple. -/
def add_glyphs_to_row (t : Tables) (text0 : String) :
    String × String × String :=
  let text := pyReplace text0 "\n" " \n "
  let text := pyReplace text "..." " ... "
  let text := collapse_spaces text
  let wordforms :=
    ((splitCharL ' ' text.toList).map (fun l => (⟨l⟩ : String))).filter
      (fun wf => wf ≠ "" && wf ≠ "|" && wf ≠ ".|")
  let datas := wordforms.map (get_wordform_glyph_data t)
  let translit :=
    pyStrip (String.join (datas.map
      (fun d => String.intercalate "-" (d.map (fun x => x.1)) ++ " ")))
  let gnames :=
    pyStrip (String.join (datas.map
      (fun d => String.intercalate " " (d.map (fun x => x.2.1)) ++ " ")))
  let glyphs :=
    pyStrip (String.join (datas.map
      (fun d => String.join (d.map (fun x => x.2.2)) ++ " ")))
  (translit, gnames, glyphs)

/-! ## The CDL tree walker (`src/models/cdl.py`, `src/models/text.py`) -/

/-- `DiscontinuityType` of `cdl.py`. -/
inductive DiscontinuityType where
  | cellStart | cellEnd | column | fieldStart | fieldEnd
  | lineStart | nonw | nonx | object | surface
deriving DecidableEq, Repr

/-- `Discontinuity` of `cdl.py` (the fields consulted by `to_text`; the
remaining optional metadata fields `ref`, `label`, `n`, `subtype`, `strict`,
`extent`, `frag`, `lang`, `delim`, `queried`, `flags`, `o` are plain strings
never read by the pipeline and are kept with their `""` defaults). -/
structure Discontinuity where
  type_ : DiscontinuityType
  ref : String := ""
  label : String := ""
  n : String := ""
  subtype : String := ""
  strict : String := ""
  state : String := ""
  extent : String := ""
  scope : String := ""
  frag : String := ""
  lang : String := ""
  delim : String := ""
  queried : String := ""
  flags : String := ""
  o : String := ""
deriving DecidableEq, Repr

/-- One entry of a `gdl` item's `seq`/`group` list: only the
`breakStart`/`breakEnd` flags are read (truthiness of `.get(...)`). -/
structure GdlSub where
  breakStart : Bool := false
  breakEnd : Bool := false
deriving DecidableEq, Repr

/-- One item of a Lemma's `f["gdl"]` list. -/
structure GdlItem where
  seq : List GdlSub := []
  group : List GdlSub := []
  breakStart : Bool := false
  breakEnd : Bool := false
deriving DecidableEq, Repr

/-- The entries of a Lemma's `f` dict read by the walker:
`f.get("form", "")`, `f.get("lang", "")` and `f.get("gdl", [])`. -/
structure LemmaF where
  form : String := ""
  lang : String := ""
  gdl : List GdlItem := []
deriving DecidableEq, Repr

/-- `Lemma` of `cdl.py` (the fields read during text extraction; `id`,
`ref`, `inst`, `props`, `sig`, ... are metadata never consulted by the
walker). -/
structure LemmaNode where
  frag : String := ""
  f : LemmaF := {}
deriving DecidableEq, Repr

/-- `CDLNode` of `cdl.py`: the closed tagged union of the five node kinds.
A Chunk's discourse/type tag is never read during text extraction, and
`LLNode`/`LinkbaseNode` payloads are opaque, so only the structure needed
by the walker is carried. -/
inductive CDLNode where
  | chunk (cdl : List CDLNode)
  | disc (d : Discontinuity)
  | lem (l : LemmaNode)
  | llnode
  | linkbase
deriving Repr

/-- The internal marker tokens (`SpecialToken` of `special_token.py`). -/
def MISSING_TOK : String := "#MISSING#"

/-- `_discontinuity_to_text` of `text.py` (identical to
`Discontinuity.to_text` of `cdl.py`). -/
def discontinuity_to_text (d : Discontinuity) : Option String :=
  if d.type_ = DiscontinuityType.object then none
  else if d.type_ = DiscontinuityType.lineStart then some "\n"
  else if d.type_ = DiscontinuityType.column then some "\n#COLUMN#\n"
  else if d.type_ = DiscontinuityType.surface then some "#SURFACE#"
  else if d.state = "missing" then some "\n#MISSING#\n"
  else if d.state = "blank" then
    (if d.scope = "line" then some "\n#MISSING#\n"
     else if d.scope = "space" then some "\n#BLANK_SPACE#\n"
     else none)
  else if d.state = "ruling" then some "\n#RULING#\n"
  else none

/-- The "ideal" bracket sequence computed from a Lemma's `gdl` form
description (`_extract_text_from_node`, the `ideal_bracket_seq` loop). -/
def ideal_bracket_seq (gdl : List GdlItem) : List Char :=
  gdl.foldl
    (fun acc item =>
      ((item.seq ++ item.group).foldl
          (fun a sub =>
            a ++ (if sub.breakStart then ['['] else []) ++
              (if sub.breakEnd then [']'] else []))
          acc) ++
        (if item.breakStart then ['['] else []) ++
        (if item.breakEnd then [']'] else []))
    []

/-- `"".join([char for char in text if char in "[]"])`. -/
def actual_seq (t : List Char) : List Char :=
  t.filter (fun c => c = '[' || c = ']')

/-- `text.replace("[", "").replace("]", "")`. -/
def stripBrackets (t : List Char) : List Char :=
  t.filter (fun c => !(c = '[' || c = ']'))

/-- Case 2 of the repair: insert `]` immediately before the first `[`, or
append it at the end when the text has no `[` (`text.find("[")`). -/
def insertCloseBeforeFirstOpen : List Char → List Char
  | [] => [']']
  | c :: cs => if c = '[' then ']' :: c :: cs else c :: insertCloseBeforeFirstOpen cs

/-- Helper for case 3: insert `[` immediately before the first `]`, if any. -/
def insertOpenBeforeFirstCloseGo : List Char → Option (List Char)
  | [] => none
  | c :: cs =>
    if c = ']' then some ('[' :: c :: cs)
    else (insertOpenBeforeFirstCloseGo cs).map (fun r => c :: r)

/-- Case 3 of the repair: insert `[` immediately before the first `]`, or
prepend it when the text has no `]` (`text.find("]")`). -/
def insertOpenBeforeFirstClose (t : List Char) : List Char :=
  match insertOpenBeforeFirstCloseGo t with
  | some r => r
  | none => '[' :: t

/-- Does the list start with the given character? (`str.startswith`). -/
def headIs (c : Char) (l : List Char) : Bool :=
  match l with
  | [] => false
  | d :: _ => d = c

/-- Does the list end with the given character? (`str.endswith`). -/
def lastIs (c : Char) (l : List Char) : Bool :=
  match l.getLast? with
  | some d => d = c
  | none => false

/-- The bracket-repair heuristic of `_extract_text_from_node` applied to a
Lemma's literal text and ideal bracket sequence (lines 300-363 of
`text.py`). -/
def repair_lemma_text (text0 : List Char) (ideal : List Char) : List Char :=
  if ideal = [] then text0
  else
    let actual := actual_seq text0
    if ideal = actual then text0
    else if headIs '[' ideal && lastIs ']' ideal then
      -- 1. Simple open-and-shut
      let t1 := if !headIs '[' actual then '[' :: text0 else text0
      let t2 := if !lastIs ']' actual then t1 ++ [']'] else t1
      if ideal = actual_seq t2 then t2
      else '[' :: (stripBrackets t2 ++ [']'])
    else
      -- 2. Starts w/ closing
      let t1 :=
        if headIs ']' ideal && !headIs ']' actual then
          insertCloseBeforeFirstOpen text0
        else text0
      -- 3. Ends w/ opening
      let t2 :=
        if lastIs '[' ideal && !lastIs '[' actual then
          insertOpenBeforeFirstClose t1
        else t1
      if ideal = actual_seq t2 then t2
      else
        let t3 := stripBrackets t2
        let t4 :=
          if containsSubGo "[]".toList ideal then '[' :: (t3 ++ [']']) else t3
        let t5 := if headIs '[' ideal then '[' :: t4 else t4
        if lastIs ']' ideal then t5 ++ [']'] else t5

/-- `_extract_text_from_node` of `text.py` (`extract_text_from_node` of
`cdl.py` is the same function). -/
def extract_text_from_node (node : CDLNode) : Option String :=
  match node with
  | CDLNode.disc d => discontinuity_to_text d
  | CDLNode.lem l =>
    let text := if l.frag ≠ "" then l.frag else l.f.form
    some ⟨repair_lemma_text text.toList (ideal_bracket_seq l.f.gdl)⟩
  | _ => none

/-- `_extract_lang_from_node` of `text.py`. -/
def extract_lang_from_node (node : CDLNode) : String :=
  match node with
  | CDLNode.lem l => l.f.lang
  | _ => ""

/-- `_crawl_cdl_for_text` of `text.py`: flatten a list of CDL nodes into the
ordered token stream and the set of observed languages.  Python's `if text:`
and `if lang:` truthiness tests skip `None`/empty strings. -/
def crawl_cdl_for_text : List CDLNode → List String × Finset String
  | [] => ([], ∅)
  | CDLNode.chunk cdl :: rest =>
    let p1 := crawl_cdl_for_text cdl
    let p2 := crawl_cdl_for_text rest
    (p1.1 ++ p2.1, p1.2 ∪ p2.2)
  | node :: rest =>
    let text := extract_text_from_node node
    let lang := extract_lang_from_node node
    let p2 := crawl_cdl_for_text rest
    ((match text with
      | some s => if s = "" then p2.1 else s :: p2.1
      | none => p2.1),
     if lang = "" then p2.2 else insert lang p2.2)

/-! ## The enclosure normalizer (`3_clean_up_transliterations.py`)

Each phase of the script is a pure function of the record's text (plus the
record id, for the handful of record-specific hard-coded corrections).  The
concrete regular expressions are implemented as explicit scanners. -/

/-- `_double_angle_brackets`. -/
def double_angle_brackets (t : String) : String :=
  pyReplace (pyReplace t "<<" "") ">>" ""

/-- `_upper_brackets`. -/
def upper_brackets (t : String) : String :=
  pyReplace (pyReplace t "⸢" "") "⸣" ""

/-- Helper for the two double-curly patterns: scan for the first `}}` with
no intervening newline, returning (characters before it, rest after it). -/
def findDoubleClose : List Char → Option (List Char × List Char)
  | [] => none
  | c :: cs =>
    if c = '\n' then none
    else if c = '\x7d' then
      match cs with
      | d :: rest =>
        if d = '\x7d' then some ([], rest)
        else
          (match findDoubleClose cs with
           | some (inner, r) => some (c :: inner, r)
           | none => none)
      | [] => none
    else
      match findDoubleClose cs with
      | some (inner, r) => some (c :: inner, r)
      | none => none

/-- Match attempt for `\{\{[^\n]*?\}\}` at the head of the list. -/
def tryCurlyGloss (l : List Char) : Option (List Char × List Char) :=
  match l with
  | c1 :: c2 :: cs =>
    if c1 = '\x7b' && c2 = '\x7b' then
      match findDoubleClose cs with
      | some (inner, rest) =>
        some ('\x7b' :: '\x7b' :: (inner ++ ['\x7d', '\x7d']), rest)
      | none => none
    else none
  | _ => none

/-- Match attempt for `\n[^\n]*?\}\}` at the head of the list. -/
def tryNlCurlyGloss (l : List Char) : Option (List Char × List Char) :=
  match l with
  | c :: cs =>
    if c = '\n' then
      match findDoubleClose cs with
      | some (inner, rest) => some ('\n' :: (inner ++ ['\x7d', '\x7d']), rest)
      | none => none
    else none
  | [] => none

/-- `re.findall` for a pattern given by a head-anchored match attempt:
leftmost, non-overlapping matches. -/
def findMatchesWith (tryM : List Char → Option (List Char × List Char)) :
    Nat → List Char → List (List Char)
  | _, [] => []
  | 0, _ => []
  | fuel + 1, c :: cs =>
    match tryM (c :: cs) with
    | some (m, rest) => m :: findMatchesWith tryM fuel rest
    | none => findMatchesWith tryM fuel cs

/-- `_double_curly_braces`: delete linguistic-gloss spans (the `print`
diagnostics are reporting only). -/
def double_curly_braces (t : String) : String :=
  let ms1 := findMatchesWith tryCurlyGloss (t.length + 1) t.toList
  let t1 := ms1.foldl (fun s m => pyReplace s ⟨m⟩ "") t
  let ms2 := findMatchesWith tryNlCurlyGloss (t1.length + 1) t1.toList
  ms2.foldl (fun s m => pyReplace s ⟨m⟩ "\n") t1

/-- Characters collapsed around newlines: `[\ \-\n]`. -/
def isPadNl (c : Char) : Bool := c = ' ' || c = '-' || c = '\n'

/-- Characters collapsed around spaces and the missing token: `[\ \-]`. -/
def isPadSp (c : Char) : Bool := c = ' ' || c = '-'

/-- `re.sub(r"([\ \-]*\n[\ \-]*)+", "\n")`: a maximal run of spaces,
hyphens and newlines containing at least one newline collapses to `\n`. -/
def collapse_newline_runs_go : Nat → List Char → List Char
  | _, [] => []
  | 0, l => l
  | fuel + 1, c :: cs =>
    if isPadNl c then
      let run := (c :: cs).takeWhile isPadNl
      let rest := (c :: cs).dropWhile isPadNl
      (if run.contains '\n' then ['\n'] else run) ++
        collapse_newline_runs_go fuel rest
    else c :: collapse_newline_runs_go fuel cs

/-- `re.sub(r"([\-]*\ [\-]*)+", " ")`: a maximal run of spaces and hyphens
containing at least one space collapses to a single space. -/
def collapse_space_runs_go : Nat → List Char → List Char
  | _, [] => []
  | 0, l => l
  | fuel + 1, c :: cs =>
    if isPadSp c then
      let run := (c :: cs).takeWhile isPadSp
      let rest := (c :: cs).dropWhile isPadSp
      (if run.contains ' ' then [' '] else run) ++
        collapse_space_runs_go fuel rest
    else c :: collapse_space_runs_go fuel cs

/-- `"#MISSING#"` as a character list. -/
def missingTok : List Char := "#MISSING#".toList

/-- Tokenizer behind `re.sub(r"([\ \-]*#MISSING#[\ \-]*)+", MISSING)`:
consume a maximal run of pad characters and `#MISSING#` tokens, reporting
whether at least one `#MISSING#` occurred. -/
def takeMissingRun : Nat → List Char → List Char × Bool × List Char
  | _, [] => ([], false, [])
  | 0, l => ([], false, l)
  | fuel + 1, c :: cs =>
    if isPadSp c then
      let r := takeMissingRun fuel cs
      (c :: r.1, r.2.1, r.2.2)
    else if startsWithL missingTok (c :: cs) then
      let r := takeMissingRun fuel (List.drop 9 (c :: cs))
      (missingTok ++ r.1, true, r.2.2)
    else ([], false, c :: cs)

/-- `re.sub(r"([\ \-]*#MISSING#[\ \-]*)+", MISSING)`. -/
def collapse_missing_runs_go : Nat → List Char → List Char
  | _, [] => []
  | 0, l => l
  | fuel + 1, c :: cs =>
    if isPadSp c || c = '#' then
      match takeMissingRun (fuel + 1) (c :: cs) with
      | (_, true, rest) => missingTok ++ collapse_missing_runs_go fuel rest
      | (_, false, _) => c :: collapse_missing_runs_go fuel cs
    else c :: collapse_missing_runs_go fuel cs

/-- `"\n#MISSING#"` as a character list. -/
def nlMissingTok : List Char := '\n' :: missingTok

/-- Count leading repetitions of `\n#MISSING#(?=\n)` (each repetition must
be followed by a newline, which is not consumed). -/
def countNlMissingReps : Nat → List Char → Nat × List Char
  | 0, l => (0, l)
  | fuel + 1, l =>
    if startsWithL nlMissingTok l &&
        (match List.drop 10 l with
         | '\n' :: _ => true
         | _ => false) then
      let r := countNlMissingReps fuel (List.drop 10 l)
      (r.1 + 1, r.2)
    else (0, l)

/-- `re.sub(r"(\n#MISSING#(?=\n))+", "\n" + MISSING)`. -/
def collapse_nl_missing_go : Nat → List Char → List Char
  | _, [] => []
  | 0, l => l
  | fuel + 1, c :: cs =>
    if c = '\n' then
      match countNlMissingReps (fuel + 1) (c :: cs) with
      | (0, _) => c :: collapse_nl_missing_go fuel cs
      | (_ + 1, rest) => nlMissingTok ++ collapse_nl_missing_go fuel rest
    else c :: collapse_nl_missing_go fuel cs

/-- `_collapse_whitespace_hyphens_missing` (the reusable collapse step). -/
def collapse_whitespace_hyphens_missing (t : String) : String :=
  let t1 : String := ⟨collapse_newline_runs_go (t.length + 1) t.toList⟩
  let t2 : String := ⟨collapse_space_runs_go (t1.length + 1) t1.toList⟩
  let t3 : String := ⟨collapse_char_runs_go '-' (t2.length + 1) t2.toList⟩
  let t4 : String := ⟨collapse_missing_runs_go (t3.length + 1) t3.toList⟩
  ⟨collapse_nl_missing_go (t4.length + 1) t4.toList⟩

/-- `_sanity_check_1`: prints diagnostics only, the text is unchanged. -/
def sanity_check_1 (t : String) : String := t

/-- `_sanity_check_2`: prints diagnostics only, the text is unchanged. -/
def sanity_check_2 (t : String) : String := t

/-- `_sanity_check_3`: prints diagnostics only, the text is unchanged. -/
def sanity_check_3 (t : String) : String := t

/-- `_check_for_unmatched_brackets`: the per-line bracket check only prints;
the text changes only for the hard-coded record `P343022`. -/
def check_for_unmatched_brackets (id t : String) : String :=
  if id = "P343022" then pyReplace t " [x x x\n" (MISSING_TOK ++ "\n") else t

/-- Non-greedy scan `[allowed]*?stop`: consume characters satisfying
`allowed` until the `stop` character (consumed); fail on any other
character or at the end. -/
def scanUntil (stop : Char) (allowed : Char → Bool) :
    List Char → Option (List Char × List Char)
  | [] => none
  | c :: cs =>
    if c = stop then some ([], cs)
    else if allowed c then
      match scanUntil stop allowed cs with
      | some (a, r) => some (c :: a, r)
      | none => none
    else none

/-- Non-greedy scan `[allowed]*?stop1 stop2` (two-character closer). -/
def scanUntil2 (stop1 stop2 : Char) (allowed : Char → Bool) :
    List Char → Option (List Char × List Char)
  | [] => none
  | c :: cs =>
    if c = stop1 then
      match cs with
      | d :: rest => if d = stop2 then some ([], rest) else none
      | [] => none
    else if allowed c then
      match scanUntil2 stop1 stop2 allowed cs with
      | some (a, r) => some (c :: a, r)
      | none => none
    else none

/-- Case 1 of `_fix_enclosure_order`: `\(\[[\-\ x]*?\)[\-\ x]*?\]`. -/
def tryCase1 (l : List Char) : Option (List Char × List Char) :=
  match l with
  | c1 :: c2 :: cs =>
    if c1 = '(' && c2 = '[' then
      match scanUntil ')' (fun c => c = '-' || c = ' ' || c = 'x') cs with
      | some (a, r1) =>
        match scanUntil ']' (fun c => c = '-' || c = ' ' || c = 'x') r1 with
        | some (b, r2) =>
          some ('(' :: '[' :: (a ++ ')' :: (b ++ [']'])), r2)
        | none => none
      | none => none
    else none
  | _ => none

/-- Case 2 of `_fix_enclosure_order`: `\[[^\n(\]]*?\([^\n)\]]*?\]\)`. -/
def tryCase2 (l : List Char) : Option (List Char × List Char) :=
  match l with
  | c :: cs =>
    if c = '[' then
      match scanUntil '(' (fun c => !(c = '\n' || c = '(' || c = ']')) cs with
      | some (a, r1) =>
        match scanUntil2 ']' ')' (fun c => !(c = '\n' || c = ')' || c = ']')) r1 with
        | some (b, r2) =>
          some ('[' :: (a ++ '(' :: (b ++ [']', ')'])), r2)
        | none => none
      | none => none
    else none
  | [] => none

/-- Case 3 of `_fix_enclosure_order`: `\{\[[^\n}\]]*?\}[^\n\]]*?\]`. -/
def tryCase3 (l : List Char) : Option (List Char × List Char) :=
  match l with
  | c1 :: c2 :: cs =>
    if c1 = '\x7b' && c2 = '[' then
      match scanUntil '\x7d' (fun c => !(c = '\n' || c = '\x7d' || c = ']')) cs with
      | some (a, r1) =>
        match scanUntil ']' (fun c => !(c = '\n' || c = ']')) r1 with
        | some (b, r2) =>
          some ('\x7b' :: '[' :: (a ++ '\x7d' :: (b ++ [']'])), r2)
        | none => none
      | none => none
    else none
  | _ => none

/-- Case 4 of `_fix_enclosure_order`: `\[[^\n{\]]*?\{[^\n\]]*?\]\}`. -/
def tryCase4 (l : List Char) : Option (List Char × List Char) :=
  match l with
  | c :: cs =>
    if c = '[' then
      match scanUntil '\x7b' (fun c => !(c = '\n' || c = '\x7b' || c = ']')) cs with
      | some (a, r1) =>
        match scanUntil2 ']' '\x7d' (fun c => !(c = '\n' || c = ']')) r1 with
        | some (b, r2) =>
          some ('[' :: (a ++ '\x7b' :: (b ++ [']', '\x7d'])), r2)
        | none => none
      | none => none
    else none
  | [] => none

/-- Case 5 of `_fix_enclosure_order`: `\<[^\n{\>]*?\{[^\n}\>]*?\>\}`. -/
def tryCase5 (l : List Char) : Option (List Char × List Char) :=
  match l with
  | c :: cs =>
    if c = '<' then
      match scanUntil '\x7b' (fun c => !(c = '\n' || c = '\x7b' || c = '>')) cs with
      | some (a, r1) =>
        match scanUntil2 '>' '\x7d' (fun c => !(c = '\n' || c = '\x7d' || c = '>')) r1 with
        | some (b, r2) =>
          some ('<' :: (a ++ '\x7b' :: (b ++ ['>', '\x7d'])), r2)
        | none => none
      | none => none
    else none
  | [] => none

/-- Case 6 of `_fix_enclosure_order`: `\{\<[^\n\}\>]*?\}`. -/
def tryCase6 (l : List Char) : Option (List Char × List Char) :=
  match l with
  | c1 :: c2 :: cs =>
    if c1 = '\x7b' && c2 = '<' then
      match scanUntil '\x7d' (fun c => !(c = '\n' || c = '\x7d' || c = '>')) cs with
      | some (a, r) => some ('\x7b' :: '<' :: (a ++ ['\x7d']), r)
      | none => none
    else none
  | _ => none

/-- One case of `_fix_enclosure_order`: find all matches in the current
text, then replace each match with its reordered form
(`match.replace(pat, rep)`). -/
def applyEnclosureCase (tryM : List Char → Option (List Char × List Char))
    (pat rep : String) (s : String) : String :=
  (findMatchesWith tryM (s.length + 1) s.toList).foldl
    (fun acc m => pyReplace acc ⟨m⟩ (pyReplace ⟨m⟩ pat rep)) s

/-- `_fix_enclosure_order`. -/
def fix_enclosure_order (id t : String) : String :=
  let t := applyEnclosureCase tryCase1 "([" "[(" t
  let t := applyEnclosureCase tryCase2 "])" ")]" t
  let t := applyEnclosureCase tryCase3 "\x7b[" "[\x7b" t
  let t := applyEnclosureCase tryCase4 "]\x7d" "\x7d]" t
  let t := applyEnclosureCase tryCase5 ">\x7d" "\x7d>" t
  let t := applyEnclosureCase tryCase6 "\x7b<" "<\x7b" t
  if id = "P324221" then
    pyReplace t "[ma-da za-ab-ša-li\x7b<ki]>\x7d" "[ma-da za-ab-ša-li<\x7bki\x7d>]"
  else t

/-- First sub of `_single_angle_brackets` (`re.sub(r"<[^\n]*?>", "")`):
scan helper, replacing each matched span with nothing. -/
def angle_sub1_go : Nat → List Char → List Char
  | _, [] => []
  | 0, l => l
  | fuel + 1, c :: cs =>
    if c = '<' then
      match scanUntil '>' (fun d => d ≠ '\n') cs with
      | some (_, rest) => angle_sub1_go fuel rest
      | none => c :: angle_sub1_go fuel cs
    else c :: angle_sub1_go fuel cs

/-- Scan for `[^\n>]*?(\n|$)` after an unmatched `<`: succeed at a newline
(consumed) or at the end of the string; fail upon `>`. -/
def scanToNlOrEnd : List Char → Option (List Char)
  | [] => some []
  | c :: cs =>
    if c = '\n' then some cs
    else if c = '>' then none
    else scanToNlOrEnd cs

/-- Second sub of `_single_angle_brackets`
(`re.sub(r"(<[^\n>]*?(\n|$))", MISSING + "\n")`). -/
def angle_sub2_go : Nat → List Char → List Char
  | _, [] => []
  | 0, l => l
  | fuel + 1, c :: cs =>
    if c = '<' then
      match scanToNlOrEnd cs with
      | some rest => (missingTok ++ ['\n']) ++ angle_sub2_go fuel rest
      | none => c :: angle_sub2_go fuel cs
    else c :: angle_sub2_go fuel cs

/-- Scan for `[^\n<]*?>`: succeed upon a `>` (consumed); fail upon `\n`,
`<`, or the end. -/
def tryAngleClose : List Char → Option (List Char)
  | [] => none
  | c :: cs =>
    if c = '>' then some cs
    else if c = '\n' || c = '<' then none
    else tryAngleClose cs

/-- Third sub of `_single_angle_brackets`
(`re.sub(r"((\n|^)[^\n<]*?>)", "\n" + MISSING)`); the `atStart` flag models
the `^` alternative, which can only fire at the start of the string. -/
def angle_sub3_go : Nat → Bool → List Char → List Char
  | _, _, [] => []
  | 0, _, l => l
  | fuel + 1, atStart, c :: cs =>
    if c = '\n' then
      match tryAngleClose cs with
      | some rest => ('\n' :: missingTok) ++ angle_sub3_go fuel false rest
      | none => c :: angle_sub3_go fuel false cs
    else if atStart then
      match tryAngleClose (c :: cs) with
      | some rest => ('\n' :: missingTok) ++ angle_sub3_go fuel false rest
      | none => c :: angle_sub3_go fuel false cs
    else c :: angle_sub3_go fuel false cs

/-- `_single_angle_brackets`. -/
def single_angle_brackets (t : String) : String :=
  let t1 : String := ⟨angle_sub1_go (t.length + 1) t.toList⟩
  let t2 : String := ⟨angle_sub2_go (t1.length + 1) t1.toList⟩
  ⟨angle_sub3_go (t2.length + 1) true t2.toList⟩

/-- `_semicolons`. -/
def semicolons (t : String) : String := pyReplace t ";" "\n"

/-- `_single_curly_braces`. -/
def single_curly_braces (t : String) : String :=
  pyReplace (pyReplace t "\x7b-" "\x7b") "-\x7d" "\x7d"

/-- Match attempt for `\|[^|a-z]*?\|`. -/
def tryVbar (l : List Char) : Option (List Char × List Char) :=
  match l with
  | c :: cs =>
    if c = '|' then
      match scanUntil '|' (fun d => !(d = '|' || ('a' ≤ d && d ≤ 'z'))) cs with
      | some (inner, rest) => some ('|' :: (inner ++ ['|']), rest)
      | none => none
    else none
  | [] => none

/-- `_vertical_bars`: append a hyphen after each vertical-bar span (a span
containing a hyphen is first stripped of hyphens, so its replacement is a
no-op on the text — the source replaces occurrences of the stripped
string). -/
def vertical_bars (t : String) : String :=
  (findMatchesWith tryVbar (t.length + 1) t.toList).foldl
    (fun acc m =>
      let mS : String := ⟨m⟩
      let m2 := if containsSub mS "-" then pyReplace mS "-" "" else mS
      pyReplace acc m2 (m2 ++ "-"))
    t

/-- ASCII letter test (`[a-zA-Z]`). -/
def isAsciiLetter (c : Char) : Bool :=
  ('a' ≤ c && c ≤ 'z') || ('A' ≤ c && c ≤ 'Z')

/-- `re.sub(r"\-+\)", ")-")`. -/
def parens_sub1_go : Nat → List Char → List Char
  | _, [] => []
  | 0, l => l
  | fuel + 1, c :: cs =>
    if c = '-' then
      match (c :: cs).dropWhile (fun d => d = '-') with
      | ')' :: r2 => ')' :: '-' :: parens_sub1_go fuel r2
      | _ => c :: parens_sub1_go fuel cs
    else c :: parens_sub1_go fuel cs

/-- `re.sub(r"\)([a-zA-Z])", r")-\1")`. -/
def parens_sub2_go : Nat → List Char → List Char
  | _, [] => []
  | 0, l => l
  | fuel + 1, c :: cs =>
    if c = ')' then
      match cs with
      | d :: r =>
        if isAsciiLetter d then ')' :: '-' :: d :: parens_sub2_go fuel r
        else c :: parens_sub2_go fuel cs
      | [] => [')']
    else c :: parens_sub2_go fuel cs

/-- `_parentheses`. -/
def parentheses (t : String) : String :=
  let t1 : String := ⟨parens_sub1_go (t.length + 1) t.toList⟩
  let t2 : String := ⟨parens_sub2_go (t1.length + 1) t1.toList⟩
  pyReplace t2 "(-" "("

/-- `re.sub(r"\[[^\[\]\n]*?\]", MISSING)`. -/
def square_sub_a_go : Nat → List Char → List Char
  | _, [] => []
  | 0, l => l
  | fuel + 1, c :: cs =>
    if c = '[' then
      match scanUntil ']' (fun d => !(d = '[' || d = ']' || d = '\n')) cs with
      | some (_, rest) => missingTok ++ square_sub_a_go fuel rest
      | none => c :: square_sub_a_go fuel cs
    else c :: square_sub_a_go fuel cs

/-- `re.sub(r"\[[^\[\]\n]*?\n", MISSING + "\n")`. -/
def square_sub_b_go : Nat → List Char → List Char
  | _, [] => []
  | 0, l => l
  | fuel + 1, c :: cs =>
    if c = '[' then
      match scanUntil '\n' (fun d => !(d = '[' || d = ']')) cs with
      | some (_, rest) => (missingTok ++ ['\n']) ++ square_sub_b_go fuel rest
      | none => c :: square_sub_b_go fuel cs
    else c :: square_sub_b_go fuel cs

/-- `re.sub(r"\n[^\[\]\n]*?\]", "\n" + MISSING)`. -/
def square_sub_c_go : Nat → List Char → List Char
  | _, [] => []
  | 0, l => l
  | fuel + 1, c :: cs =>
    if c = '\n' then
      match scanUntil ']' (fun d => !(d = '[' || d = '\n')) cs with
      | some (_, rest) => ('\n' :: missingTok) ++ square_sub_c_go fuel rest
      | none => c :: square_sub_c_go fuel cs
    else c :: square_sub_c_go fuel cs

/-- `_single_square_brackets` (the first sub is applied twice, for nested
brackets). -/
def single_square_brackets (t : String) : String :=
  let t1 : String := ⟨square_sub_a_go (t.length + 1) t.toList⟩
  let t2 : String := ⟨square_sub_a_go (t1.length + 1) t1.toList⟩
  let t3 : String := ⟨square_sub_b_go (t2.length + 1) t2.toList⟩
  ⟨square_sub_c_go (t3.length + 1) t3.toList⟩

/-- `[\ \-\n]` (the separator class of the x/o/n regex). -/
def isSep (c : Char) : Bool := c = ' ' || c = '-' || c = '\n'

/-- `[xXnNo]`. -/
def isXonChar (c : Char) : Bool :=
  c = 'x' || c = 'X' || c = 'n' || c = 'N' || c = 'o'

/-- `re.sub(r"([\ \-\n])([xXnNo])(?=[\ \-\n]|$)", r"\1" + MISSING)`. -/
def xon_regex_go : Nat → List Char → List Char
  | _, [] => []
  | 0, l => l
  | fuel + 1, c :: cs =>
    if isSep c then
      match cs with
      | d :: rest =>
        if isXonChar d &&
            (match rest with
             | [] => true
             | e :: _ => isSep e) then
          (c :: missingTok) ++ xon_regex_go fuel rest
        else c :: xon_regex_go fuel cs
      | [] => [c]
    else c :: xon_regex_go fuel cs

/-- The sixteen literal replaces of `_x_o_n` for one of the characters
`x`, `o`, `n`, `X`, `O`, `N`. -/
def xon_char_replaces (t : String) (ch : String) : String :=
  let m := MISSING_TOK
  let t := pyReplace t ("(" ++ ch ++ ")") m
  let t := pyReplace t ("[" ++ ch ++ "]") m
  let t := pyReplace t ("(" ++ ch ++ ")") m
  let t := pyReplace t ("[" ++ ch ++ "]") m
  let t := pyReplace t ("-" ++ ch ++ "-") (" " ++ m ++ " ")
  let t := pyReplace t (" " ++ ch ++ "-") (" " ++ m ++ " ")
  let t := pyReplace t ("-" ++ ch ++ " ") (" " ++ m ++ " ")
  let t := pyReplace t (" " ++ ch ++ " ") (" " ++ m ++ " ")
  let t := pyReplace t ("\n" ++ ch ++ " ") ("\n" ++ m ++ " ")
  let t := pyReplace t (" " ++ ch ++ "\n") (" " ++ m ++ "\n")
  let t := pyReplace t (" " ++ ch ++ "$") m
  let t := pyReplace t ("-" ++ ch ++ "$") m
  let t := pyReplace t (m ++ ch ++ " ") m
  let t := pyReplace t (m ++ ch ++ "-") m
  let t := pyReplace t (" " ++ ch ++ m) m
  let t := pyReplace t ("-" ++ ch ++ m) m
  t

/-- `_x_o_n` (one application; the script runs it three times). -/
def x_o_n (id t : String) : String :=
  let t : String := ⟨xon_regex_go (t.length + 1) t.toList⟩
  let t := ["x", "o", "n", "X", "O", "N"].foldl xon_char_replaces t
  let t := if id = "P010855" then pyReplace t "x:ur" ("ur" ++ MISSING_TOK) else t
  let t := if id = "P278368" then pyReplace t "-x/EREN" MISSING_TOK else t
  let t := if id = "P323466" then pyReplace t "|3xAN|" "|AN.AN.AN|" else t
  let t := if id = "P467714" then pyReplace t "x)" (MISSING_TOK ++ ")") else t
  t

/-- `_dollar_signs` (uncaught `$` characters are only reported). -/
def dollar_signs (t : String) : String :=
  ["$ traces $", "($erasure$)", "$erasure$", "$AN", "$MU", "$UŠ", "$KID",
   "$DI", "$GA₂", "$HAR"].foldl
    (fun s p => pyReplace s p MISSING_TOK) t

/-- `_ellipses`. -/
def ellipses (t : String) : String := pyReplace t "..." MISSING_TOK

/-- Match attempt for the captured group `\([^\n\)]+\)` of the standalone
parenthesis pattern; returns (captured span, rest after the span). -/
def tryParenSpan (l : List Char) : Option (List Char × List Char) :=
  match l with
  | c :: cs =>
    if c = '(' then
      match scanUntil ')' (fun d => d ≠ '\n') cs with
      | some (inner, rest) =>
        if inner.isEmpty then none else some ('(' :: (inner ++ [')']), rest)
      | none => none
    else none
  | [] => none

/-- Complete a standalone-paren match: the span must be followed by the end
of the string, the final newline (`$`), or a consumed `\n`/space/hyphen. -/
def tryParenWithEnd (l : List Char) : Option (List Char × List Char) :=
  match tryParenSpan l with
  | some (cap, rest) =>
    (match rest with
     | [] => some (cap, [])
     | d :: rest2 =>
       if d = '\n' && rest2 = [] then some (cap, ['\n'])
       else if d = '\n' || d = ' ' || d = '-' then some (cap, rest2)
       else none)
  | none => none

/-- `re.findall(r"(?:^|\n|\ |\-)(\([^\n\)]+\))(?:$|\n|\ |\-)", t)`:
leftmost, non-overlapping; the `atStart` flag models the `^` alternative. -/
def standalone_parens_find : Nat → Bool → List Char → List (List Char)
  | _, _, [] => []
  | 0, _, _ => []
  | fuel + 1, atStart, c :: cs =>
    if c = '\n' || c = ' ' || c = '-' then
      match tryParenWithEnd cs with
      | some (cap, rest) => cap :: standalone_parens_find fuel false rest
      | none => standalone_parens_find fuel false cs
    else if atStart then
      match tryParenWithEnd (c :: cs) with
      | some (cap, rest) => cap :: standalone_parens_find fuel false rest
      | none => standalone_parens_find fuel false cs
    else standalone_parens_find fuel false cs

/-- `_standalone_parens`: remove parenthetical spans standing on their own
(each found span is removed everywhere, per `str.replace`). -/
def standalone_parens (t : String) : String :=
  (standalone_parens_find (t.length + 1) true t.toList).foldl
    (fun acc m => pyReplace acc ⟨m⟩ "") t

/-- Match attempt for a missing marker alone in an enclosure
(`\([\ \-]*#MISSING#[\ \-]*\)` and the brace variant): returns the rest
after the closing delimiter. -/
def tryMissingEnclosure (openC closeC : Char) (l : List Char) :
    Option (List Char) :=
  match l with
  | c :: cs =>
    if c = openC then
      let r1 := cs.dropWhile isPadSp
      if startsWithL missingTok r1 then
        match (List.drop 9 r1).dropWhile isPadSp with
        | d :: rest => if d = closeC then some rest else none
        | [] => none
      else none
    else none
  | [] => none

/-- Scanner for `_missing_alone_in_enclosure`, one delimiter pair. -/
def missing_enclosure_go (openC closeC : Char) : Nat → List Char → List Char
  | _, [] => []
  | 0, l => l
  | fuel + 1, c :: cs =>
    if c = openC then
      match tryMissingEnclosure openC closeC (c :: cs) with
      | some rest => missingTok ++ missing_enclosure_go openC closeC fuel rest
      | none => c :: missing_enclosure_go openC closeC fuel cs
    else c :: missing_enclosure_go openC closeC fuel cs

/-- `_missing_alone_in_enclosure`. -/
def missing_alone_in_enclosure (t : String) : String :=
  let t1 : String := ⟨missing_enclosure_go '(' ')' (t.length + 1) t.toList⟩
  ⟨missing_enclosure_go '\x7b' '\x7d' (t1.length + 1) t1.toList⟩

/-- `_empty_enclosures`. -/
def empty_enclosures (t : String) : String :=
  pyReplace (pyReplace t "\x7b\x7d" "") "()" ""

/-- `DISALLOWED_1`. -/
def DISALLOWED_1 : List String := ["<<", ">>", "⸢", "⸣", "\x7b\x7b", "\x7d\x7d"]

/-- `DISALLOWED_2`. -/
def DISALLOWED_2 : List String := ["<", ">", "(-", "-)", "\x7b-", "-\x7d"]

/-- `DISALLOWED_3`. -/
def DISALLOWED_3 : List String := ["[", "]", "$", "..."]

/-- `DISALLOWED_FINAL` (the first extra entry is the literal string
`" {MISSING}"` — the source forgot the f-prefix there; the second is the
interpolated `"#MISSING# "`). -/
def DISALLOWED_FINAL : List String :=
  DISALLOWED_1 ++ DISALLOWED_2 ++ DISALLOWED_3 ++
    [" \x7bMISSING\x7d", MISSING_TOK ++ " ", "\n ", " \n", "  "]

/-- `_sanity_check_final`: prints diagnostics only, the text is
unchanged. -/
def sanity_check_final (t : String) : String := t

/-- The substrings `_sanity_check_final` would flag on a given text. -/
def sanity_check_final_flags (t : String) : List String :=
  DISALLOWED_FINAL.filter (fun p => containsSub t p)

/-- `_convert_special_tokens`: internal marker tokens to their external
spellings. -/
def convert_special_tokens (t : String) : String :=
  let t := pyReplace t "#MISSING#" "..."
  let t := pyReplace t "#SURFACE#" "<SURFACE>"
  let t := pyReplace t "#COLUMN#" "<COLUMN>"
  let t := pyReplace t "#BLANK_SPACE#" "<BLANK_SPACE>"
  let t := pyReplace t "#RULING#" "<RULING>"
  pyReplace t "\n" "\n"

/-- The full ordered phase sequence of `3_clean_up_transliterations.py`
(`main`'s `fns` list), applied to one record's transliteration. -/
def clean_up_transliteration (id t : String) : String :=
  let t := double_angle_brackets t
  let t := upper_brackets t
  let t := double_curly_braces t
  let t := collapse_whitespace_hyphens_missing t
  let t := sanity_check_1 t
  let t := check_for_unmatched_brackets id t
  let t := fix_enclosure_order id t
  let t := single_angle_brackets t
  let t := semicolons t
  let t := single_curly_braces t
  let t := vertical_bars t
  let t := parentheses t
  let t := collapse_whitespace_hyphens_missing t
  let t := sanity_check_2 t
  let t := single_square_brackets t
  let t := x_o_n id t
  let t := x_o_n id t
  let t := x_o_n id t
  let t := dollar_signs t
  let t := ellipses t
  let t := standalone_parens t
  let t := collapse_whitespace_hyphens_missing t
  let t := sanity_check_3 t
  let t := missing_alone_in_enclosure t
  let t := empty_enclosures t
  let t := collapse_whitespace_hyphens_missing t
  let t := sanity_check_final t
  convert_special_tokens t

/-- The external token spellings (`SpecialTokensAfter`, in enumeration
order). -/
def EXTERNAL_TOKENS : List String :=
  ["...", "<SURFACE>", "<COLUMN>", "<BLANK_SPACE>", "<RULING>", "\n"]

/-- `_without_special_tokens` of `_remove_tablets_with_no_transliteration`. -/
def without_special_tokens (t : String) : String :=
  EXTERNAL_TOKENS.foldl (fun s tok => pyReplace s tok "") t

/-- The token-closure property of the spec: after removing the six external
token spellings, none of the raw source markers remains. -/
def token_closure_ok (t : String) : Bool :=
  !(["<", "\x7b\x7b", "$", "[", "]", "..."].any
      (fun mark => containsSub (without_special_tokens t) mark))

/-! ## The record-level glyph pipeline (`main` of `5_add_glyphs.py`) -/

/-- `SIGN_LIST_REPLACEMENTS`. -/
def SIGN_LIST_REPLACEMENTS : List (String × String) :=
  [("BAU377", "GIŠ"), ("KWU147", "LIL"), ("KWU354", "LUM"),
   ("KWU636", "KU₄"), ("KWU777", "ŠITA"), ("KWU844", "|E₂×AŠ@t|"),
   ("LAK060", "|UŠ×TAK₄|"), ("LAK085", "|SI×TAK₄|"), ("LAK173", "KAD₅"),
   ("LAK175", "SANGA₂"), ("LAK218", "|ZU&ZU.SAR|"), ("LAK449", "|NUNUZ.AB₂|"),
   ("LAK524", "|ZUM×TUG₂|"), ("LAK589", "GISAL"), ("LAK672a", "UŠX"),
   ("LAK672b", "MUNSUB"), ("LAK720", "|LAK648×(PAP.PAP.LU₃)|"),
   ("LAK769", "|LAGAB×AN|"), ("LAK777", "|DAG.KISIM₅×UŠ|")]

/-- `GLYPH_NAME_REPLACEMENTS`. -/
def GLYPH_NAME_REPLACEMENTS : List (String × String) :=
  [("(ŠE.1(AŠ))", "(ŠE.AŠ)"), ("(ŠE.2(AŠ))", "(ŠE.AŠ.AŠ)"),
   ("|E₂.BALAG|", "|KID.BALAG|"), ("|SAHAR.DU₆.TAK₄|", "IŠ LAGAR@g TAK₄"),
   ("|ŠE.ŠE|", "ŠE ŠE"), ("(EN.ZU-TI.LA.BI-DU₁₁.GA)", "|EN.ZU| TI LA BI KA GA"),
   ("|EN₂.E₂|", "|ŠU₂.AN| E₂"), ("|TAB.BA|", "TAB BA"), ("|GAR.UD|", "GAR UD"),
   ("|NE.DAG|", "NE DAG"), ("|ŠU₂.DUN₃@g@g@s|", "|ŠU₂.DUN₃|"),
   ("BAD₃", "|EZEN×BAD|"), ("BIL₂", "NE@s"), ("DU₈", "DUH"),
   ("ERIM", "ERIN₂"), ("GAG", "KAK"), ("GIN₂", "DUN₃@g"), ("GU₄", "GUD"),
   ("GUB", "DU"), ("ITI", "|UD×(U.U.U)|"), ("MUNUS", "SAL"), ("NIG₂", "GAR"),
   ("ŠAG₄", "ŠA₃"), ("ŠE₃", "EŠ₂"), ("SILA₄", "|GA₂×PA|"), ("SIG₇", "IGI@g"),
   ("TUR₃", "|NUN.LAGAR|"), ("UH₃", "KUŠU₂"), ("U₈", "|LAGAB×(GUD&GUD)|")]

/-- `READING_PLUS_SIGN_NAME_REPLACEMENTS`. -/
def READING_PLUS_SIGN_NAME_REPLACEMENTS : List (String × String) :=
  [("ad₆ ", "ad₆(|LU₂.LAGAB×U|) "),
   ("dabₓ(|LAGAB×(GUD&GUD)|)", "dibₓ(|LAGAB×(GUD&GUD)|)"),
   ("erinₓ(KWU896)", "erenₓ(KWU896)"),
   ("gurₓ(|ŠE.KIN|)še₃", "gurₓ(|ŠE.KIN|)-še₃"),
   ("gurumₓ(|IGI.ERIN₂|)", "gurum₂"), ("ilduₓ(NAGAR)", "nagar"),
   ("itiₓ(|UD@s×BAD|)", "iti₂(|UD@s×BAD|)"),
   ("itiₓ(|UD@s×TIL|)", "iti₂(|UD@s×BAD|)"), ("kuₓ(KU₄)", "ku₄"),
   ("lumₓ(LUM)", "lum"), ("mudₓ(|NUNUZ.AB₂|)", "mud₃(|NUNUZ.AB₂|)"),
   ("sangaₓ(|ŠID.GAR|)", "saŋŋaₓ(|ŠID.GAR|)"), ("šaganₓ(AMA)", "daŋal"),
   ("šitaₓ(ŠITA)", "šita"), ("tabₓ(MAN)", "tab₄"),
   ("umbinₓ(|UR₂×KID₂|)", "umbin(|UR₂×KID₂|)"),
   ("ušurₓ(|LAL₂×TUG₂|)", "ušurₓ(|LAL₂.TUG₂|)"), ("ugaₓ(NAGA)", "uga₃"),
   ("zeₓ(SIG₇)", "ziₓ(IGI@g)"), ("zeₓ(IGI@g)", "ziₓ(IGI@g)")]

/-- `READING_REPLACEMENTS`. -/
def READING_REPLACEMENTS : List (String × String) :=
  [("babila", "babilim"), ("eri₁₃", "ere₁₃"), ("eriš₂", "ereš₂"),
   ("šu+nigin₂", "šuniŋin"), ("šu+nigin", "šuniŋin"), ("+...", "..."),
   ("...+", "..."), ("@c", ""), ("@t", ""), ("@v", ""), ("@90", "")]

/-- `NUM_REPLACEMENTS`. -/
def NUM_REPLACEMENTS : List (String × String) :=
  [("1/2(aš)", "1/2"), ("1/3(aš)", "1/3"), ("1/4(aš)", "1/4"),
   ("2/3(aš)", "2/3"), ("5/6(aš)", "5/6")]

/-- `FINAL_REPLACEMENTS`. -/
def FINAL_REPLACEMENTS : List (String × String) :=
  [("||LAGAB×(GUD&GUD)|+HUL₂|", "|LAGAB×(GUD&GUD)+HUL₂|"),
   ("||EZEN×BAD|.AN|", "|EZEN×BAD.AN|"),
   ("|NINDA₂×(ŠE.2(AŠ@c))|", "|NINDA₂×(ŠE.AŠ.AŠ)|")]

/-- `ALL_REPLACEMENTS`, flattened in application order. -/
def ALL_REPLACEMENTS : List (String × String) :=
  SIGN_LIST_REPLACEMENTS ++ GLYPH_NAME_REPLACEMENTS ++
    READING_PLUS_SIGN_NAME_REPLACEMENTS ++ READING_REPLACEMENTS ++
    NUM_REPLACEMENTS ++ FINAL_REPLACEMENTS

/-- The replacement loop of `main` (`df["transliteration"].str.replace(k, v)`
for every table in `ALL_REPLACEMENTS`). -/
def apply_all_replacements (s : String) : String :=
  ALL_REPLACEMENTS.foldl (fun t p => pyReplace t p.1 p.2) s

/-- `re.sub(r"\ *\n\ *", "\n")` of `main`'s postprocessing. -/
def spaces_around_newlines_go : Nat → List Char → List Char
  | _, [] => []
  | 0, l => l
  | fuel + 1, c :: cs =>
    if c = '\n' then
      '\n' :: spaces_around_newlines_go fuel (cs.dropWhile (fun d => d = ' '))
    else if c = ' ' then
      let spaces := (c :: cs).takeWhile (fun d => d = ' ')
      match (c :: cs).dropWhile (fun d => d = ' ') with
      | '\n' :: r2 =>
        '\n' :: spaces_around_newlines_go fuel (r2.dropWhile (fun d => d = ' '))
      | _ => spaces ++ spaces_around_newlines_go fuel ((c :: cs).dropWhile (fun d => d = ' '))
    else c :: spaces_around_newlines_go fuel cs

/-- `re.sub(r"\ *\n\ *", "\n", s)`. -/
def spaces_around_newlines (s : String) : String :=
  ⟨spaces_around_newlines_go (s.length + 1) s.toList⟩

/-- Parse one or more groups of `\ *\.{3,} *` greedily, returning the rest
after the last successful group; `none` when no group matches. -/
def ellipsisGroups : Nat → List Char → Option (List Char)
  | 0, _ => none
  | fuel + 1, l =>
    let afterSpaces := l.dropWhile (fun d => d = ' ')
    let dots := afterSpaces.takeWhile (fun d => d = '.')
    if dots.length ≥ 3 then
      let rest := (afterSpaces.dropWhile (fun d => d = '.')).dropWhile
        (fun d => d = ' ')
      match ellipsisGroups fuel rest with
      | some r => some r
      | none => some rest
    else none

/-- `re.sub(r"(\ *\.{3,} *)+", "...")` of `main`'s postprocessing. -/
def ellipsis_collapse_go : Nat → List Char → List Char
  | _, [] => []
  | 0, l => l
  | fuel + 1, c :: cs =>
    if c = ' ' || c = '.' then
      match ellipsisGroups (fuel + 1) (c :: cs) with
      | some rest => ("...".toList) ++ ellipsis_collapse_go fuel rest
      | none => c :: ellipsis_collapse_go fuel cs
    else c :: ellipsis_collapse_go fuel cs

/-- `re.sub(r"(\ *\.{3,} *)+", "...", s)`. -/
def ellipsis_collapse (s : String) : String :=
  ⟨ellipsis_collapse_go (s.length + 1) s.toList⟩

/-- Step (3) of `main` of `5_add_glyphs.py`: the postprocessing applied to
the three output columns after `_add_glyphs`. -/
def main_postprocess (translit gnames glyphs : String) :
    String × String × String :=
  let t := spaces_around_newlines translit
  let t := pyReplace t "-\x7b" "\x7b"
  let t := pyReplace t "\x7d-" "\x7d"
  let t := pyReplace t "<unk>-" "<unk> "
  let t := pyReplace t "-<unk>" " <unk>"
  let t := ellipsis_collapse t
  let n := ellipsis_collapse gnames
  let g := ellipsis_collapse glyphs
  let g := pyReplace g " " ""
  (t, n, g)

/-- The whole per-record computation of `main` of `5_add_glyphs.py`:
replacement tables, glyph resolution, postprocessing. -/
def script5_row (t : Tables) (translit : String) : String × String × String :=
  let tr := apply_all_replacements translit
  let r := add_glyphs_to_row t tr
  main_postprocess r.1 r.2.1 r.2.2

/-! ## Record filtering and deduplication (C6) -/

/-- A record as it leaves the cleanup script: id and normalized
transliteration. -/
structure Row where
  id : String
  translit : String
deriving DecidableEq, Repr

/-- A record as it leaves the glyph script. -/
structure Row5 where
  id : String
  translit : String
  gnames : String
  glyphs : String
deriving DecidableEq, Repr

/-- `_remove_tablets_with_no_transliteration` of
`3_clean_up_transliterations.py`: keep exactly the rows whose
transliteration, stripped of the external special tokens, is non-empty. -/
def remove_tablets_with_no_transliteration (rows : List Row) : List Row :=
  rows.filter (fun r => without_special_tokens r.translit ≠ "")

/-- `df.drop_duplicates(subset=[key])` (pandas): keep the first row with
each key value. -/
def drop_duplicates_by {α : Type} (key : α → String) (seen : List String) :
    List α → List α
  | [] => []
  | r :: rest =>
    if (seen.contains (key r)) then drop_duplicates_by key seen rest
    else r :: drop_duplicates_by key (key r :: seen) rest

/-- `_drop_rows_with_identical_transliterations` of `5_add_glyphs.py`. -/
def drop_rows_with_identical_transliterations (rows : List Row5) : List Row5 :=
  drop_duplicates_by (fun r => r.translit) [] rows

/-- `_drop_rows_with_identical_glyphs` of `5_add_glyphs.py`. -/
def drop_rows_with_identical_glyphs (rows : List Row5) : List Row5 :=
  drop_duplicates_by (fun r => r.glyphs) [] rows

/-- The record-dropping portion of the pipeline downstream of full
normalization: the cleanup script's empty-transliteration filter, the glyph
script's per-row computation, and its two deduplication passes. -/
def final_record_pipeline (t : Tables) (rows : List Row) : List Row5 :=
  drop_rows_with_identical_glyphs
    (drop_rows_with_identical_transliterations
      ((remove_tablets_with_no_transliteration rows).map
        (fun r =>
          let d := script5_row t r.translit
          { id := r.id, translit := d.1, gnames := d.2.1, glyphs := d.2.2 })))

/-- A concrete sign-table fixture used for the concrete theorems below:
the reading `ta` resolves to the single sign name `TA`, whose glyph is the
cuneiform sign TA; nothing else is in the tables. -/
def exTables : Tables :=
  { reading_to_glyph_name := [("ta", ["TA"])],
    glyph_name_to_unicode := [("TA", "𒋫")] }

/-- Plain sign-text characters: lowercase ASCII letters other than the
placeholder letters `x`, `n`, `o`.  No phase of the enclosure normalizer
touches a text built solely from these. -/
def plainChar (c : Char) : Bool :=
  (97 ≤ c.toNat && c.toNat ≤ 122) &&
    (c.toNat ≠ 110 && c.toNat ≠ 111 && c.toNat ≠ 120)

/-- Does the pattern start with a character that is not plain?  (Such a
pattern can never occur in a plain text.) -/
def patHeadOk (pat : String) : Bool :=
  match pat.toList with
  | p :: _ => !plainChar p
  | [] => false

/-! ## Theorems -/

/-- Numeric bounds carried by a plain character. -/
theorem plain_bounds {c : Char} (hc : plainChar c = true) :
    97 ≤ c.toNat ∧ c.toNat ≤ 122 ∧ c.toNat ≠ 110 ∧ c.toNat ≠ 111 ∧
      c.toNat ≠ 120 := by
  simp [plainChar] at hc
  omega

/-- A plain character differs from any character outside the plain range. -/
theorem plain_ne {c : Char} (hc : plainChar c = true) (d : Char)
    (hd : d.toNat < 97 ∨ 122 < d.toNat ∨ d.toNat = 110 ∨ d.toNat = 111 ∨
      d.toNat = 120) : c ≠ d := by
  intro h
  subst h
  have hb := plain_bounds hc
  omega

/-- A non-plain head character can never begin a match in a plain list. -/
theorem startsWithL_cons_ne {p : Char} {ps : List Char} {c : Char}
    {cs : List Char} (h : p ≠ c) :
    startsWithL (p :: ps) (c :: cs) = false := by
  simp [startsWithL, h]

/-- `String.mk` is inverse to `String.toList`. -/
theorem mk_toList (s : String) : (⟨s.toList⟩ : String) = s := by
  cases s
  rfl

/-- `pyReplaceGo` is the identity on a plain list when the pattern begins
with a non-plain character. -/
theorem pyReplaceGo_plain_id (p : Char) (ps rep : List Char)
    (hp : plainChar p = false) :
    ∀ (l : List Char) (fuel : Nat), (∀ c ∈ l, plainChar c = true) →
      l.length ≤ fuel → pyReplaceGo (p :: ps) rep fuel l = l := by
  intro l
  induction l with
  | nil => intro fuel _ _; cases fuel <;> rfl
  | cons c cs ih =>
    intro fuel hpl hlen
    cases fuel with
    | zero => simp at hlen
    | succ f =>
      have hc : plainChar c = true := hpl c (by simp)
      have hne : p ≠ c := by
        intro h
        rw [h, hc] at hp
        cases hp
      show (if startsWithL (p :: ps) (c :: cs) && !(p :: ps).isEmpty then _
            else c :: pyReplaceGo (p :: ps) rep f cs) = c :: cs
      rw [startsWithL_cons_ne hne]
      simp only [Bool.false_and, Bool.false_eq_true, if_false]
      congr 1
      exact ih f (fun d hd => hpl d (by simp [hd]))
        (Nat.succ_le_succ_iff.mp hlen)

/-- `pyReplace` with a pattern beginning with a non-plain character is the
identity on plain strings. -/
theorem pyReplace_plain_id (s pat rep : String) (hp : patHeadOk pat = true)
    (hs : ∀ c ∈ s.toList, plainChar c = true) : pyReplace s pat rep = s := by
  unfold pyReplace
  rcases hpat : pat.toList with _ | ⟨p, ps⟩
  · simp only [patHeadOk, hpat] at hp
    cases hp
  · simp only [patHeadOk, hpat] at hp
    have hp2 : plainChar p = false := by simpa using hp
    rw [pyReplaceGo_plain_id p ps rep.toList hp2 s.toList (s.length + 1)
      hs (Nat.le_succ _)]
    exact mk_toList s

/-- No pad/newline character is plain. -/
theorem plain_not_padnl {c : Char} (hc : plainChar c = true) :
    isPadNl c = false := by
  simp [isPadNl, plain_ne hc ' ' (by decide), plain_ne hc '-' (by decide),
    plain_ne hc '\n' (by decide)]

/-- No pad character is plain. -/
theorem plain_not_padsp {c : Char} (hc : plainChar c = true) :
    isPadSp c = false := by
  simp [isPadSp, plain_ne hc ' ' (by decide), plain_ne hc '-' (by decide)]

/-- No separator character of the x/o/n regex is plain. -/
theorem plain_not_sep {c : Char} (hc : plainChar c = true) :
    isSep c = false := by
  simp [isSep, plain_ne hc ' ' (by decide), plain_ne hc '-' (by decide),
    plain_ne hc '\n' (by decide)]

/-- `collapse_newline_runs_go` is the identity on plain lists. -/
theorem collapse_newline_runs_plain :
    ∀ (l : List Char) (fuel : Nat), (∀ c ∈ l, plainChar c = true) →
      l.length ≤ fuel → collapse_newline_runs_go fuel l = l := by
  intro l
  induction l with
  | nil => intro fuel _ _; cases fuel <;> rfl
  | cons c cs ih =>
    intro fuel hpl hlen
    cases fuel with
    | zero => simp at hlen
    | succ f =>
      have hc := hpl c (by simp)
      simp only [collapse_newline_runs_go, plain_not_padnl hc,
        Bool.false_eq_true, if_false]
      congr 1
      exact ih f (fun d hd => hpl d (by simp [hd]))
        (Nat.succ_le_succ_iff.mp hlen)

/-- `collapse_space_runs_go` is the identity on plain lists. -/
theorem collapse_space_runs_plain :
    ∀ (l : List Char) (fuel : Nat), (∀ c ∈ l, plainChar c = true) →
      l.length ≤ fuel → collapse_space_runs_go fuel l = l := by
  intro l
  induction l with
  | nil => intro fuel _ _; cases fuel <;> rfl
  | cons c cs ih =>
    intro fuel hpl hlen
    cases fuel with
    | zero => simp at hlen
    | succ f =>
      have hc := hpl c (by simp)
      simp only [collapse_space_runs_go, plain_not_padsp hc,
        Bool.false_eq_true, if_false]
      congr 1
      exact ih f (fun d hd => hpl d (by simp [hd]))
        (Nat.succ_le_succ_iff.mp hlen)

/-- `collapse_char_runs_go` is the identity on plain lists when the
collapsed character is not plain. -/
theorem collapse_char_runs_plain (ch : Char) (hch : plainChar ch = false) :
    ∀ (l : List Char) (fuel : Nat), (∀ c ∈ l, plainChar c = true) →
      l.length ≤ fuel → collapse_char_runs_go ch fuel l = l := by
  intro l
  induction l with
  | nil => intro fuel _ _; cases fuel <;> rfl
  | cons c cs ih =>
    intro fuel hpl hlen
    cases fuel with
    | zero => simp at hlen
    | succ f =>
      have hc := hpl c (by simp)
      have hne : ¬(c = ch) := by
        intro h
        rw [h, hch] at hc
        cases hc
      simp only [collapse_char_runs_go]
      rw [if_neg hne]
      congr 1
      exact ih f (fun d hd => hpl d (by simp [hd]))
        (Nat.succ_le_succ_iff.mp hlen)

/-- `collapse_missing_runs_go` is the identity on plain lists. -/
theorem collapse_missing_runs_plain :
    ∀ (l : List Char) (fuel : Nat), (∀ c ∈ l, plainChar c = true) →
      l.length ≤ fuel → collapse_missing_runs_go fuel l = l := by
  intro l
  induction l with
  | nil => intro fuel _ _; cases fuel <;> rfl
  | cons c cs ih =>
    intro fuel hpl hlen
    cases fuel with
    | zero => simp at hlen
    | succ f =>
      have hc := hpl c (by simp)
      have hne : ¬(c = '#') := plain_ne hc '#' (by decide)
      have htrig : (isPadSp c || decide (c = '#')) = false := by
        simp [plain_not_padsp hc, hne]
      simp only [collapse_missing_runs_go, htrig, Bool.false_eq_true, if_false]
      congr 1
      exact ih f (fun d hd => hpl d (by simp [hd]))
        (Nat.succ_le_succ_iff.mp hlen)

/-- `collapse_nl_missing_go` is the identity on plain lists. -/
theorem collapse_nl_missing_plain :
    ∀ (l : List Char) (fuel : Nat), (∀ c ∈ l, plainChar c = true) →
      l.length ≤ fuel → collapse_nl_missing_go fuel l = l := by
  intro l
  induction l with
  | nil => intro fuel _ _; cases fuel <;> rfl
  | cons c cs ih =>
    intro fuel hpl hlen
    cases fuel with
    | zero => simp at hlen
    | succ f =>
      have hc := hpl c (by simp)
      have hne : ¬(c = '\n') := plain_ne hc '\n' (by decide)
      simp only [collapse_nl_missing_go]
      rw [if_neg hne]
      congr 1
      exact ih f (fun d hd => hpl d (by simp [hd]))
        (Nat.succ_le_succ_iff.mp hlen)

/-- Helper for C8: counting form of the accumulator update, for a morpheme
that is not a special token. -/
theorem record_observed_nonspecial (data : List (String × String × String))
    (acc : String → String → Nat) (g m : String)
    (hm : SPECIAL_TOKENS.contains m = false) :
    record_observed acc data g m =
      acc g m +
        (data.filter (fun item => item.1 = m && item.2.2 = g)).length := by
  induction data generalizing acc with
  | nil => simp [record_observed]
  | cons d rest ih =>
    have hstep : record_observed acc (d :: rest) =
        record_observed
          (if SPECIAL_TOKENS.contains d.1 then acc
           else fun g' m' =>
             if g' = d.2.2 && m' = d.1 then acc g' m' + 1 else acc g' m')
          rest := rfl
    rw [hstep]
    by_cases hd : SPECIAL_TOKENS.contains d.1 = true
    · rw [if_pos hd, ih acc]
      have hne : (decide (d.1 = m) && decide (d.2.2 = g)) = false := by
        have h1 : d.1 ≠ m := by
          intro h
          rw [h] at hd
          rw [hd] at hm
          cases hm
        simp [h1]
      simp [List.filter_cons, hne]
    · rw [if_neg hd]
      rw [ih]
      by_cases h1 : d.1 = m
      · by_cases h2 : d.2.2 = g
        · have hfil : (decide (d.1 = m) && decide (d.2.2 = g)) = true := by
            simp [h1, h2]
          have hupd : (if (decide (g = d.2.2) && decide (m = d.1)) = true
              then acc g m + 1 else acc g m) = acc g m + 1 := by
            simp [h1.symm, h2.symm]
          simp only [List.filter_cons, hfil, if_true, List.length_cons]
          rw [hupd]
          omega
        · have hfil : (decide (d.1 = m) && decide (d.2.2 = g)) = false := by
            simp [h2]
          have hupd : (if (decide (g = d.2.2) && decide (m = d.1)) = true
              then acc g m + 1 else acc g m) = acc g m := by
            have : ¬(g = d.2.2) := fun h => h2 h.symm
            simp [this]
          simp only [List.filter_cons, hfil]
          rw [hupd]
          simp
      · have hfil : (decide (d.1 = m) && decide (d.2.2 = g)) = false := by
          simp [h1]
        have hupd : (if (decide (g = d.2.2) && decide (m = d.1)) = true
            then acc g m + 1 else acc g m) = acc g m := by
          have : ¬(m = d.1) := fun h => h1 h.symm
          simp [this]
        simp only [List.filter_cons, hfil]
        rw [hupd]
        simp

/-- Helper for C8: the accumulator entry of a special-token morpheme is
never touched. -/
theorem record_observed_special (data : List (String × String × String))
    (acc : String → String → Nat) (g m : String)
    (hm : SPECIAL_TOKENS.contains m = true) :
    record_observed acc data g m = acc g m := by
  induction data generalizing acc with
  | nil => simp [record_observed]
  | cons d rest ih =>
    have hstep : record_observed acc (d :: rest) =
        record_observed
          (if SPECIAL_TOKENS.contains d.1 then acc
           else fun g' m' =>
             if g' = d.2.2 && m' = d.1 then acc g' m' + 1 else acc g' m')
          rest := rfl
    rw [hstep]
    by_cases hd : SPECIAL_TOKENS.contains d.1 = true
    · rw [if_pos hd]
      exact ih acc
    · rw [if_neg hd, ih]
      have hne : ¬(m = d.1) := by
        intro h
        rw [← h] at hd
        exact hd hm
      simp [hne]

/-- Claim C8: every morpheme resolution of the glyph resolver — successful
or fallen back to the unknown triple — increments the observed-reading
accumulator entry keyed by the final glyph with the resolved morpheme
(once per occurrence), except resolutions whose morpheme is one of the
structural/special tokens, which leave the accumulator untouched. -/
theorem observed_reading_accumulator (t : Tables) (wf : String)
    (acc : String → String → Nat) (g m : String) :
    (SPECIAL_TOKENS.contains m = false →
      record_observed acc (get_wordform_glyph_data t wf) g m =
        acc g m +
          ((get_wordform_glyph_data t wf).filter
            (fun item => item.1 = m && item.2.2 = g)).length) ∧
    (SPECIAL_TOKENS.contains m = true →
      record_observed acc (get_wordform_glyph_data t wf) g m = acc g m) := by
  exact ⟨fun hm => record_observed_nonspecial _ acc g m hm,
         fun hm => record_observed_special _ acc g m hm⟩

/-- Witness for C8: concrete accumulator updates for the wordform
`zzz-ta` — the resolved morpheme `ta` is counted under its glyph, while the
fallback's unknown morpheme (a special token) leaves its entry at zero. -/
theorem observed_reading_accumulator_witness :
    record_observed (fun _ _ => 0) (get_wordform_glyph_data exTables "zzz-ta")
        "𒋫" "ta" = 1 ∧
    record_observed (fun _ _ => 0) (get_wordform_glyph_data exTables "zzz-ta")
        UNK UNK = 0 := by
  constructor
  · have h := (observed_reading_accumulator exTables "zzz-ta"
      (fun _ _ => 0) "𒋫" "ta").1 (by decide)
    rw [h]
    decide
  · exact (observed_reading_accumulator exTables "zzz-ta"
      (fun _ _ => 0) UNK UNK).2 (by decide)

/-- Claim C10: a morpheme whose single resolved candidate sign name is
exactly `"N"` is silently dropped by the glyph stage, so it contributes
nothing to any of the three per-wordform outputs. -/
theorem glyph_name_N_skipped (t : Tables) (m : String)
    (possible : List String) (rest : List (String × String))
    (hp : possible = ["N"]) :
    glyph_stage t (accept_morpheme m possible :: rest) = glyph_stage t rest := by
  subst hp
  simp [accept_morpheme, glyph_stage, UNK]

/-- Witness for C10: the `"N"`-named morpheme disappears while its
neighbour is kept. -/
theorem glyph_name_N_skipped_witness :
    glyph_stage exTables (accept_morpheme "aš" ["N"] :: [("ta", "TA")]) =
      [("ta", "TA", "𒋫")] := by
  rw [glyph_name_N_skipped exTables "aš" ["N"] [("ta", "TA")] rfl]
  decide

/-- Claim C1: the resolution step keeps the displayed text and sign name of
a morpheme exactly when its candidate list is a singleton; zero or several
candidates turn both into the unknown token (and the final triple into the
fully unknown one); and an accepted sign name whose glyph lookup is absent,
maps to the empty string, or contains the placeholder character `X`
downgrades the whole result to the fully unknown triple. -/
theorem resolver_acceptance_and_glyph_fallback (t : Tables) (m g gn : String)
    (possible : List String) (rest : List (String × String)) :
    (possible = [g] → g ≠ UNK → accept_morpheme m possible = (m, g)) ∧
    (possible.length ≠ 1 →
      accept_morpheme m possible = (UNK, UNK) ∧
      glyph_stage t (accept_morpheme m possible :: rest) =
        (UNK, UNK, UNK) :: glyph_stage t rest) ∧
    (m ≠ UNK → gn ≠ "N" →
      SPECIAL_TOKENS.contains (swap_glyph_name gn) = false →
      (lookupA t.glyph_name_to_unicode (swap_glyph_name gn) = none ∨
       lookupA t.glyph_name_to_unicode (swap_glyph_name gn) = some "" ∨
       (∃ u, lookupA t.glyph_name_to_unicode (swap_glyph_name gn) = some u ∧
          u.toList.contains 'X' = true)) →
      glyph_stage t ((m, gn) :: rest) =
        (UNK, UNK, UNK) :: glyph_stage t rest) := by
  refine ⟨?_, ?_, ?_⟩
  · intro hp hg
    subst hp
    simp [accept_morpheme, hg]
  · intro hlen
    have hacc : accept_morpheme m possible = (UNK, UNK) := by
      rcases possible with _ | ⟨a, _ | ⟨b, rest2⟩⟩
      · simp [accept_morpheme]
      · simp at hlen
      · simp [accept_morpheme]
    refine ⟨hacc, ?_⟩
    rw [hacc]
    simp [glyph_stage, UNK, swap_glyph_name, lookupA, SWAP_GLYPH_NAMES]
  · intro hm hgn hsp hlk
    have hu : glyph_name_to_unicode t (swap_glyph_name gn) = UNK ∨
        (glyph_name_to_unicode t (swap_glyph_name gn)).toList.contains 'X' =
          true := by
      unfold glyph_name_to_unicode
      rw [hsp]
      simp only [Bool.false_eq_true, if_false]
      rcases hlk with h | h | ⟨u, hlku, hx⟩
      · left
        rw [h]
      · left
        rw [h]
        simp
      · by_cases hemp : u = ""
        · left
          rw [hlku]
          subst hemp
          simp
        · right
          rw [hlku]
          show (if u = "" then UNK else u).toList.contains 'X' = true
          rw [if_neg hemp]
          exact hx
    have hstage : glyph_stage t ((m, gn) :: rest) =
        if gn = "N" then glyph_stage t rest
        else if m = UNK then (UNK, UNK, UNK) :: glyph_stage t rest
        else if glyph_name_to_unicode t (swap_glyph_name gn) = UNK ||
            (glyph_name_to_unicode t (swap_glyph_name gn)).toList.contains 'X'
          then (UNK, UNK, UNK) :: glyph_stage t rest
        else (m, swap_glyph_name gn,
          glyph_name_to_unicode t (swap_glyph_name gn)) ::
            glyph_stage t rest := rfl
    have hcond : (decide (glyph_name_to_unicode t (swap_glyph_name gn) = UNK) ||
        (glyph_name_to_unicode t (swap_glyph_name gn)).toList.contains 'X') =
          true := by
      rcases hu with h | h
      · rw [h]
        simp
      · rw [h]
        simp
    rw [hstage, if_neg hgn, if_neg hm, if_pos hcond]

/-- Witness for C1: a singleton candidate is accepted verbatim, an empty
candidate list yields the unknown pair and triple, and a sign name without
a glyph is downgraded to the fully unknown triple. -/
theorem resolver_acceptance_and_glyph_fallback_witness :
    accept_morpheme "ta" ["TA"] = ("ta", "TA") ∧
    accept_morpheme "zz" [] = (UNK, UNK) ∧
    glyph_stage exTables [("zz", "QQ")] = [(UNK, UNK, UNK)] := by
  refine ⟨(resolver_acceptance_and_glyph_fallback exTables "ta" "TA" "QQ"
      ["TA"] []).1 rfl (by decide),
    ((resolver_acceptance_and_glyph_fallback exTables "zz" "TA" "QQ"
      [] []).2.1 (by decide)).1, ?_⟩
  have h := (resolver_acceptance_and_glyph_fallback exTables "zz" "TA" "QQ"
    [] []).2.2 (by decide) (by decide) (by decide) (Or.inl (by decide))
  simpa using h

/-- Claim C2: the rendering of a Discontinuity node follows the fixed
precedence of `_discontinuity_to_text`: object yields nothing, line-start a
bare newline, column and surface their markers, then the state is
consulted — missing yields the missing marker, blank yields the missing
marker for line scope, the blank-space marker (newline-bounded) for space
scope and nothing otherwise, ruling yields the ruling marker, and every
remaining combination yields nothing. -/
theorem discontinuity_rendering (d : Discontinuity) :
    (d.type_ = DiscontinuityType.object → discontinuity_to_text d = none) ∧
    (d.type_ = DiscontinuityType.lineStart →
      discontinuity_to_text d = some "\n") ∧
    (d.type_ = DiscontinuityType.column →
      discontinuity_to_text d = some "\n#COLUMN#\n") ∧
    (d.type_ = DiscontinuityType.surface →
      discontinuity_to_text d = some "#SURFACE#") ∧
    (d.type_ ≠ DiscontinuityType.object →
     d.type_ ≠ DiscontinuityType.lineStart →
     d.type_ ≠ DiscontinuityType.column →
     d.type_ ≠ DiscontinuityType.surface →
      ((d.state = "missing" → discontinuity_to_text d = some "\n#MISSING#\n") ∧
       (d.state = "blank" →
          (d.scope = "line" → discontinuity_to_text d = some "\n#MISSING#\n") ∧
          (d.scope = "space" →
            discontinuity_to_text d = some "\n#BLANK_SPACE#\n") ∧
          (d.scope ≠ "line" → d.scope ≠ "space" →
            discontinuity_to_text d = none)) ∧
       (d.state = "ruling" → discontinuity_to_text d = some "\n#RULING#\n") ∧
       (d.state ≠ "missing" → d.state ≠ "blank" → d.state ≠ "ruling" →
          discontinuity_to_text d = none))) := by
  refine ⟨fun h => by simp [discontinuity_to_text, h],
          fun h => by simp [discontinuity_to_text, h],
          fun h => by simp [discontinuity_to_text, h],
          fun h => by simp [discontinuity_to_text, h],
          fun h1 h2 h3 h4 => ⟨?_, ?_, ?_, ?_⟩⟩
  · intro h
    simp [discontinuity_to_text, h, h1, h2, h3, h4]
  · intro h
    refine ⟨fun hsc => ?_, fun hsc => ?_, fun hs1 hs2 => ?_⟩
    · simp [discontinuity_to_text, h, h1, h2, h3, h4, hsc]
    · simp [discontinuity_to_text, h, h1, h2, h3, h4, hsc]
    · simp [discontinuity_to_text, h, h1, h2, h3, h4, hs1, hs2]
  · intro h
    simp [discontinuity_to_text, h, h1, h2, h3, h4]
  · intro h5 h6 h7
    simp [discontinuity_to_text, h1, h2, h3, h4, h5, h6, h7]

/-- Witness for C2: concrete Discontinuity nodes for the three example
renderings of the spec. -/
theorem discontinuity_rendering_witness :
    discontinuity_to_text { type_ := DiscontinuityType.lineStart } =
      some "\n" ∧
    discontinuity_to_text { type_ := DiscontinuityType.object } = none ∧
    discontinuity_to_text
        { type_ := DiscontinuityType.cellStart, state := "blank",
          scope := "space" } = some "\n#BLANK_SPACE#\n" := by
  refine ⟨(discontinuity_rendering _).2.1 rfl,
          (discontinuity_rendering _).1 rfl, ?_⟩
  exact (((discontinuity_rendering _).2.2.2.2 (by decide) (by decide)
    (by decide) (by decide)).2.1 rfl).2.1 rfl

/-- Claim C5: during the recursive walk a Lemma node contributes its
extracted lexical text (when non-empty) at its position in the token
stream, and its non-empty language tag is added to the observed-language
set. -/
theorem tree_walker_lemma_node (l : LemmaNode) (rest : List CDLNode)
    (tx : String) (ht : extract_text_from_node (CDLNode.lem l) = some tx)
    (htne : tx ≠ "") (hl : l.f.lang ≠ "") :
    (crawl_cdl_for_text (CDLNode.lem l :: rest)).1 =
      tx :: (crawl_cdl_for_text rest).1 ∧
    (crawl_cdl_for_text (CDLNode.lem l :: rest)).2 =
      insert l.f.lang (crawl_cdl_for_text rest).2 := by
  constructor <;>
    simp [crawl_cdl_for_text, ht, extract_lang_from_node, htne, hl]

/-- Witness for C5: a Lemma with fragment `ab` and language `sux` heads the
token stream and contributes its language. -/
theorem tree_walker_lemma_node_witness :
    (crawl_cdl_for_text
        [CDLNode.lem { frag := "ab", f := { lang := "sux" } }]).1 = ["ab"] ∧
    (crawl_cdl_for_text
        [CDLNode.lem { frag := "ab", f := { lang := "sux" } }]).2 =
      insert "sux" (∅ : Finset String) := by
  have h := tree_walker_lemma_node { frag := "ab", f := { lang := "sux" } }
    [] "ab" rfl (by decide) (by decide)
  constructor
  · rw [h.1]
    simp [crawl_cdl_for_text]
  · rw [h.2]
    simp [crawl_cdl_for_text]

/-- Helper for C9: on bracket-free text, the repair with ideal sequence
`[]` wraps the text in one bracket pair. -/
theorem repair_wrap (t : List Char)
    (h : ∀ c ∈ t, c ≠ '[' ∧ c ≠ ']') :
    repair_lemma_text t ['[', ']'] = '[' :: (t ++ [']']) := by
  have hact : List.filter (fun c => c = '[' || c = ']') t = [] := by
    rw [List.filter_eq_nil_iff]
    intro c hc
    simp [(h c hc).1, (h c hc).2]
  simp [repair_lemma_text, actual_seq, headIs, lastIs, hact]

/-- Claim C9: a Lemma whose ideal bracket sequence is exactly `[]` and
whose literal text contains no bracket characters has its text wrapped as
`[text]` by the walker's bracket repair. -/
theorem lemma_bracket_wrap (l : LemmaNode)
    (hideal : ideal_bracket_seq l.f.gdl = ['[', ']'])
    (htext : ∀ c ∈ (if l.frag ≠ "" then l.frag else l.f.form).toList,
        c ≠ '[' ∧ c ≠ ']') :
    extract_text_from_node (CDLNode.lem l) =
      some ("[" ++ (if l.frag ≠ "" then l.frag else l.f.form) ++ "]") := by
  have hred : extract_text_from_node (CDLNode.lem l) =
      some ⟨repair_lemma_text
        (if l.frag ≠ "" then l.frag else l.f.form).toList
        (ideal_bracket_seq l.f.gdl)⟩ := rfl
  rw [hred, hideal, repair_wrap _ htext]
  congr 1

/-- Witness for C9: a Lemma with fragment `ab` and a break-start/break-end
pair in its form description extracts as `[ab]`. -/
theorem lemma_bracket_wrap_witness :
    extract_text_from_node
        (CDLNode.lem
          { frag := "ab",
            f := { gdl := [({ breakStart := true, breakEnd := true } : GdlItem)] } }) =
      some "[ab]" := by
  have h := lemma_bracket_wrap
    { frag := "ab",
      f := { gdl := [({ breakStart := true, breakEnd := true } : GdlItem)] } }
    (by decide) (by decide)
  simpa using h

/-- `angle_sub1_go` is the identity on plain lists. -/
theorem angle_sub1_plain :
    ∀ (l : List Char) (fuel : Nat), (∀ c ∈ l, plainChar c = true) →
      l.length ≤ fuel → angle_sub1_go fuel l = l := by
  intro l
  induction l with
  | nil => intro fuel _ _; cases fuel <;> rfl
  | cons c cs ih =>
    intro fuel hpl hlen
    cases fuel with
    | zero => simp at hlen
    | succ f =>
      have hne : ¬(c = '<') := plain_ne (hpl c (by simp)) '<' (by decide)
      simp only [angle_sub1_go]
      rw [if_neg hne]
      congr 1
      exact ih f (fun d hd => hpl d (by simp [hd]))
        (Nat.succ_le_succ_iff.mp hlen)

/-- `angle_sub2_go` is the identity on plain lists. -/
theorem angle_sub2_plain :
    ∀ (l : List Char) (fuel : Nat), (∀ c ∈ l, plainChar c = true) →
      l.length ≤ fuel → angle_sub2_go fuel l = l := by
  intro l
  induction l with
  | nil => intro fuel _ _; cases fuel <;> rfl
  | cons c cs ih =>
    intro fuel hpl hlen
    cases fuel with
    | zero => simp at hlen
    | succ f =>
      have hne : ¬(c = '<') := plain_ne (hpl c (by simp)) '<' (by decide)
      simp only [angle_sub2_go]
      rw [if_neg hne]
      congr 1
      exact ih f (fun d hd => hpl d (by simp [hd]))
        (Nat.succ_le_succ_iff.mp hlen)

/-- `tryAngleClose` fails on plain lists (no `>` occurs). -/
theorem tryAngleClose_plain :
    ∀ l : List Char, (∀ c ∈ l, plainChar c = true) → tryAngleClose l = none := by
  intro l
  induction l with
  | nil => intro _; rfl
  | cons c cs ih =>
    intro hpl
    have hc := hpl c (by simp)
    have h1 : ¬(c = '>') := plain_ne hc '>' (by decide)
    have h2 : (decide (c = '\n') || decide (c = '<')) = false := by
      simp [plain_ne hc '\n' (by decide), plain_ne hc '<' (by decide)]
    simp only [tryAngleClose]
    rw [if_neg h1]
    rw [if_neg (by simp at h2 ⊢; exact h2)]
    exact ih (fun d hd => hpl d (by simp [hd]))

/-- `angle_sub3_go` is the identity on plain lists, whatever the
start-of-string flag. -/
theorem angle_sub3_plain :
    ∀ (l : List Char) (fuel : Nat) (b : Bool),
      (∀ c ∈ l, plainChar c = true) → l.length ≤ fuel →
      angle_sub3_go fuel b l = l := by
  intro l
  induction l with
  | nil => intro fuel b _ _; cases fuel <;> rfl
  | cons c cs ih =>
    intro fuel b hpl hlen
    cases fuel with
    | zero => simp at hlen
    | succ f =>
      have hc := hpl c (by simp)
      have hne : ¬(c = '\n') := plain_ne hc '\n' (by decide)
      have htail : ∀ d ∈ cs, plainChar d = true :=
        fun d hd => hpl d (by simp [hd])
      have hlen2 := Nat.succ_le_succ_iff.mp hlen
      simp only [angle_sub3_go]
      rw [if_neg hne]
      cases b with
      | false =>
        simp only [Bool.false_eq_true, if_false]
        congr 1
        exact ih f false htail hlen2
      | true =>
        simp only [if_true]
        rw [tryAngleClose_plain (c :: cs) hpl]
        show c :: angle_sub3_go f false cs = c :: cs
        congr 1
        exact ih f false htail hlen2

/-- `parens_sub1_go` is the identity on plain lists. -/
theorem parens_sub1_plain :
    ∀ (l : List Char) (fuel : Nat), (∀ c ∈ l, plainChar c = true) →
      l.length ≤ fuel → parens_sub1_go fuel l = l := by
  intro l
  induction l with
  | nil => intro fuel _ _; cases fuel <;> rfl
  | cons c cs ih =>
    intro fuel hpl hlen
    cases fuel with
    | zero => simp at hlen
    | succ f =>
      have hne : ¬(c = '-') := plain_ne (hpl c (by simp)) '-' (by decide)
      simp only [parens_sub1_go]
      rw [if_neg hne]
      congr 1
      exact ih f (fun d hd => hpl d (by simp [hd]))
        (Nat.succ_le_succ_iff.mp hlen)

/-- `parens_sub2_go` is the identity on plain lists. -/
theorem parens_sub2_plain :
    ∀ (l : List Char) (fuel : Nat), (∀ c ∈ l, plainChar c = true) →
      l.length ≤ fuel → parens_sub2_go fuel l = l := by
  intro l
  induction l with
  | nil => intro fuel _ _; cases fuel <;> rfl
  | cons c cs ih =>
    intro fuel hpl hlen
    cases fuel with
    | zero => simp at hlen
    | succ f =>
      have hne : ¬(c = ')') := plain_ne (hpl c (by simp)) ')' (by decide)
      simp only [parens_sub2_go]
      rw [if_neg hne]
      congr 1
      exact ih f (fun d hd => hpl d (by simp [hd]))
        (Nat.succ_le_succ_iff.mp hlen)

/-- `square_sub_a_go` is the identity on plain lists. -/
theorem square_sub_a_plain :
    ∀ (l : List Char) (fuel : Nat), (∀ c ∈ l, plainChar c = true) →
      l.length ≤ fuel → square_sub_a_go fuel l = l := by
  intro l
  induction l with
  | nil => intro fuel _ _; cases fuel <;> rfl
  | cons c cs ih =>
    intro fuel hpl hlen
    cases fuel with
    | zero => simp at hlen
    | succ f =>
      have hne : ¬(c = '[') := plain_ne (hpl c (by simp)) '[' (by decide)
      simp only [square_sub_a_go]
      rw [if_neg hne]
      congr 1
      exact ih f (fun d hd => hpl d (by simp [hd]))
        (Nat.succ_le_succ_iff.mp hlen)

/-- `square_sub_b_go` is the identity on plain lists. -/
theorem square_sub_b_plain :
    ∀ (l : List Char) (fuel : Nat), (∀ c ∈ l, plainChar c = true) →
      l.length ≤ fuel → square_sub_b_go fuel l = l := by
  intro l
  induction l with
  | nil => intro fuel _ _; cases fuel <;> rfl
  | cons c cs ih =>
    intro fuel hpl hlen
    cases fuel with
    | zero => simp at hlen
    | succ f =>
      have hne : ¬(c = '[') := plain_ne (hpl c (by simp)) '[' (by decide)
      simp only [square_sub_b_go]
      rw [if_neg hne]
      congr 1
      exact ih f (fun d hd => hpl d (by simp [hd]))
        (Nat.succ_le_succ_iff.mp hlen)

/-- `square_sub_c_go` is the identity on plain lists. -/
theorem square_sub_c_plain :
    ∀ (l : List Char) (fuel : Nat), (∀ c ∈ l, plainChar c = true) →
      l.length ≤ fuel → square_sub_c_go fuel l = l := by
  intro l
  induction l with
  | nil => intro fuel _ _; cases fuel <;> rfl
  | cons c cs ih =>
    intro fuel hpl hlen
    cases fuel with
    | zero => simp at hlen
    | succ f =>
      have hne : ¬(c = '\n') := plain_ne (hpl c (by simp)) '\n' (by decide)
      simp only [square_sub_c_go]
      rw [if_neg hne]
      congr 1
      exact ih f (fun d hd => hpl d (by simp [hd]))
        (Nat.succ_le_succ_iff.mp hlen)

/-- `xon_regex_go` is the identity on plain lists. -/
theorem xon_regex_plain :
    ∀ (l : List Char) (fuel : Nat), (∀ c ∈ l, plainChar c = true) →
      l.length ≤ fuel → xon_regex_go fuel l = l := by
  intro l
  induction l with
  | nil => intro fuel _ _; cases fuel <;> rfl
  | cons c cs ih =>
    intro fuel hpl hlen
    cases fuel with
    | zero => simp at hlen
    | succ f =>
      have hc := hpl c (by simp)
      simp only [xon_regex_go, plain_not_sep hc, Bool.false_eq_true, if_false]
      congr 1
      exact ih f (fun d hd => hpl d (by simp [hd]))
        (Nat.succ_le_succ_iff.mp hlen)

/-- `missing_enclosure_go` is the identity on plain lists when the opening
delimiter is not plain. -/
theorem missing_enclosure_plain (openC closeC : Char)
    (ho : plainChar openC = false) :
    ∀ (l : List Char) (fuel : Nat), (∀ c ∈ l, plainChar c = true) →
      l.length ≤ fuel → missing_enclosure_go openC closeC fuel l = l := by
  intro l
  induction l with
  | nil => intro fuel _ _; cases fuel <;> rfl
  | cons c cs ih =>
    intro fuel hpl hlen
    cases fuel with
    | zero => simp at hlen
    | succ f =>
      have hc := hpl c (by simp)
      have hne : ¬(c = openC) := by
        intro h
        rw [h, ho] at hc
        cases hc
      simp only [missing_enclosure_go]
      rw [if_neg hne]
      congr 1
      exact ih f (fun d hd => hpl d (by simp [hd]))
        (Nat.succ_le_succ_iff.mp hlen)

/-- `findMatchesWith` finds nothing on a plain list when the match attempt
fails at every plain head. -/
theorem findMatchesWith_plain
    (tryM : List Char → Option (List Char × List Char))
    (htry : ∀ (c : Char) (cs : List Char), plainChar c = true →
      tryM (c :: cs) = none) :
    ∀ (l : List Char) (fuel : Nat), (∀ c ∈ l, plainChar c = true) →
      findMatchesWith tryM fuel l = [] := by
  intro l
  induction l with
  | nil => intro fuel _; cases fuel <;> rfl
  | cons c cs ih =>
    intro fuel hpl
    cases fuel with
    | zero => rfl
    | succ f =>
      simp only [findMatchesWith, htry c cs (hpl c (by simp))]
      exact ih f (fun d hd => hpl d (by simp [hd]))

/-- `standalone_parens_find` finds nothing on a plain list. -/
theorem standalone_parens_find_plain :
    ∀ (l : List Char) (fuel : Nat) (b : Bool),
      (∀ c ∈ l, plainChar c = true) → standalone_parens_find fuel b l = [] := by
  intro l
  induction l with
  | nil => intro fuel b _; cases fuel <;> rfl
  | cons c cs ih =>
    intro fuel b hpl
    cases fuel with
    | zero => rfl
    | succ f =>
      have hc := hpl c (by simp)
      have htrig : (decide (c = '\n') || decide (c = ' ') ||
          decide (c = '-')) = false := by
        simp [plain_ne hc '\n' (by decide), plain_ne hc ' ' (by decide),
          plain_ne hc '-' (by decide)]
      have hfail : tryParenWithEnd (c :: cs) = none := by
        have : ¬(c = '(') := plain_ne hc '(' (by decide)
        simp only [tryParenWithEnd, tryParenSpan]
        rw [if_neg this]
      have htail : ∀ d ∈ cs, plainChar d = true :=
        fun d hd => hpl d (by simp [hd])
      simp only [standalone_parens_find, htrig, Bool.false_eq_true, if_false]
      cases b with
      | false =>
        simp only [Bool.false_eq_true, if_false]
        exact ih f false htail
      | true =>
        simp only [if_true, hfail]
        exact ih f false htail

/-- `tryCurlyGloss` fails at a plain head. -/
theorem tryCurlyGloss_plain (c : Char) (cs : List Char)
    (hc : plainChar c = true) : tryCurlyGloss (c :: cs) = none := by
  cases cs with
  | nil => rfl
  | cons c2 cs2 =>
    have hne : ¬(c = '\x7b') := plain_ne hc '\x7b' (by decide)
    simp [tryCurlyGloss, hne]

/-- `tryNlCurlyGloss` fails at a plain head. -/
theorem tryNlCurlyGloss_plain (c : Char) (cs : List Char)
    (hc : plainChar c = true) : tryNlCurlyGloss (c :: cs) = none := by
  have hne : ¬(c = '\n') := plain_ne hc '\n' (by decide)
  simp [tryNlCurlyGloss, hne]

/-- `tryCase1` fails at a plain head. -/
theorem tryCase1_plain (c : Char) (cs : List Char)
    (hc : plainChar c = true) : tryCase1 (c :: cs) = none := by
  cases cs with
  | nil => rfl
  | cons c2 cs2 =>
    have hne : ¬(c = '(') := plain_ne hc '(' (by decide)
    simp [tryCase1, hne]

/-- `tryCase2` fails at a plain head. -/
theorem tryCase2_plain (c : Char) (cs : List Char)
    (hc : plainChar c = true) : tryCase2 (c :: cs) = none := by
  have hne : ¬(c = '[') := plain_ne hc '[' (by decide)
  simp [tryCase2, hne]

/-- `tryCase3` fails at a plain head. -/
theorem tryCase3_plain (c : Char) (cs : List Char)
    (hc : plainChar c = true) : tryCase3 (c :: cs) = none := by
  cases cs with
  | nil => rfl
  | cons c2 cs2 =>
    have hne : ¬(c = '\x7b') := plain_ne hc '\x7b' (by decide)
    simp [tryCase3, hne]

/-- `tryCase4` fails at a plain head. -/
theorem tryCase4_plain (c : Char) (cs : List Char)
    (hc : plainChar c = true) : tryCase4 (c :: cs) = none := by
  have hne : ¬(c = '[') := plain_ne hc '[' (by decide)
  simp [tryCase4, hne]

/-- `tryCase5` fails at a plain head. -/
theorem tryCase5_plain (c : Char) (cs : List Char)
    (hc : plainChar c = true) : tryCase5 (c :: cs) = none := by
  have hne : ¬(c = '<') := plain_ne hc '<' (by decide)
  simp [tryCase5, hne]

/-- `tryCase6` fails at a plain head. -/
theorem tryCase6_plain (c : Char) (cs : List Char)
    (hc : plainChar c = true) : tryCase6 (c :: cs) = none := by
  cases cs with
  | nil => rfl
  | cons c2 cs2 =>
    have hne : ¬(c = '\x7b') := plain_ne hc '\x7b' (by decide)
    simp [tryCase6, hne]

/-- `tryVbar` fails at a plain head. -/
theorem tryVbar_plain (c : Char) (cs : List Char)
    (hc : plainChar c = true) : tryVbar (c :: cs) = none := by
  have hne : ¬(c = '|') := plain_ne hc '|' (by decide)
  simp [tryVbar, hne]

/-- All characters of a plain string, restated for its `toList`. -/
def plainStr (s : String) : Prop :=
  ∀ c ∈ s.toList, plainChar c = true

/-- `double_angle_brackets` is the identity on plain strings. -/
theorem double_angle_brackets_plain (t : String) (h : plainStr t) :
    double_angle_brackets t = t := by
  unfold double_angle_brackets
  rw [pyReplace_plain_id t "<<" "" (by decide) h,
    pyReplace_plain_id t ">>" "" (by decide) h]

/-- `upper_brackets` is the identity on plain strings. -/
theorem upper_brackets_plain (t : String) (h : plainStr t) :
    upper_brackets t = t := by
  unfold upper_brackets
  rw [pyReplace_plain_id t "⸢" "" (by decide) h,
    pyReplace_plain_id t "⸣" "" (by decide) h]

/-- `double_curly_braces` is the identity on plain strings. -/
theorem double_curly_braces_plain (t : String) (h : plainStr t) :
    double_curly_braces t = t := by
  unfold double_curly_braces
  dsimp only
  rw [findMatchesWith_plain tryCurlyGloss tryCurlyGloss_plain t.toList
    (t.length + 1) h, List.foldl_nil,
    findMatchesWith_plain tryNlCurlyGloss tryNlCurlyGloss_plain t.toList
    (t.length + 1) h]
  rfl

/-- `collapse_whitespace_hyphens_missing` is the identity on plain
strings. -/
theorem collapse_plain (t : String) (h : plainStr t) :
    collapse_whitespace_hyphens_missing t = t := by
  have hlen : t.toList.length ≤ t.length + 1 := Nat.le_succ _
  unfold collapse_whitespace_hyphens_missing
  dsimp only
  rw [collapse_newline_runs_plain t.toList (t.length + 1) h hlen, mk_toList,
    collapse_space_runs_plain t.toList (t.length + 1) h hlen, mk_toList,
    collapse_char_runs_plain '-' (by decide) t.toList (t.length + 1) h hlen,
    mk_toList,
    collapse_missing_runs_plain t.toList (t.length + 1) h hlen, mk_toList,
    collapse_nl_missing_plain t.toList (t.length + 1) h hlen]
  exact mk_toList t

/-- `check_for_unmatched_brackets` is the identity on plain strings. -/
theorem check_for_unmatched_brackets_plain (id t : String) (h : plainStr t) :
    check_for_unmatched_brackets id t = t := by
  unfold check_for_unmatched_brackets
  split
  · exact pyReplace_plain_id t " [x x x\n" _ (by decide) h
  · rfl

/-- `fix_enclosure_order` is the identity on plain strings. -/
theorem fix_enclosure_order_plain (id t : String) (h : plainStr t) :
    fix_enclosure_order id t = t := by
  unfold fix_enclosure_order applyEnclosureCase
  dsimp only
  rw [findMatchesWith_plain tryCase1 tryCase1_plain t.toList (t.length + 1) h,
    List.foldl_nil,
    findMatchesWith_plain tryCase2 tryCase2_plain t.toList (t.length + 1) h,
    List.foldl_nil,
    findMatchesWith_plain tryCase3 tryCase3_plain t.toList (t.length + 1) h,
    List.foldl_nil,
    findMatchesWith_plain tryCase4 tryCase4_plain t.toList (t.length + 1) h,
    List.foldl_nil,
    findMatchesWith_plain tryCase5 tryCase5_plain t.toList (t.length + 1) h,
    List.foldl_nil,
    findMatchesWith_plain tryCase6 tryCase6_plain t.toList (t.length + 1) h,
    List.foldl_nil]
  split
  · exact pyReplace_plain_id t "[ma-da za-ab-ša-li\x7b<ki]>\x7d" _
      (by decide) h
  · rfl

/-- `single_angle_brackets` is the identity on plain strings. -/
theorem single_angle_brackets_plain (t : String) (h : plainStr t) :
    single_angle_brackets t = t := by
  have hlen : t.toList.length ≤ t.length + 1 := Nat.le_succ _
  unfold single_angle_brackets
  dsimp only
  rw [angle_sub1_plain t.toList (t.length + 1) h hlen, mk_toList,
    angle_sub2_plain t.toList (t.length + 1) h hlen, mk_toList,
    angle_sub3_plain t.toList (t.length + 1) true h hlen]
  exact mk_toList t

/-- `semicolons` is the identity on plain strings. -/
theorem semicolons_plain (t : String) (h : plainStr t) : semicolons t = t :=
  pyReplace_plain_id t ";" "\n" (by decide) h

/-- `single_curly_braces` is the identity on plain strings. -/
theorem single_curly_braces_plain (t : String) (h : plainStr t) :
    single_curly_braces t = t := by
  unfold single_curly_braces
  rw [pyReplace_plain_id t "\x7b-" _ (by decide) h,
    pyReplace_plain_id t "-\x7d" _ (by decide) h]

/-- `vertical_bars` is the identity on plain strings. -/
theorem vertical_bars_plain (t : String) (h : plainStr t) :
    vertical_bars t = t := by
  unfold vertical_bars
  rw [findMatchesWith_plain tryVbar tryVbar_plain t.toList (t.length + 1) h]
  rfl

/-- `parentheses` is the identity on plain strings. -/
theorem parentheses_plain (t : String) (h : plainStr t) :
    parentheses t = t := by
  have hlen : t.toList.length ≤ t.length + 1 := Nat.le_succ _
  unfold parentheses
  dsimp only
  rw [parens_sub1_plain t.toList (t.length + 1) h hlen, mk_toList,
    parens_sub2_plain t.toList (t.length + 1) h hlen, mk_toList]
  exact pyReplace_plain_id t "(-" "(" (by decide) h

/-- `single_square_brackets` is the identity on plain strings. -/
theorem single_square_brackets_plain (t : String) (h : plainStr t) :
    single_square_brackets t = t := by
  have hlen : t.toList.length ≤ t.length + 1 := Nat.le_succ _
  unfold single_square_brackets
  dsimp only
  rw [square_sub_a_plain t.toList (t.length + 1) h hlen, mk_toList,
    square_sub_a_plain t.toList (t.length + 1) h hlen, mk_toList,
    square_sub_b_plain t.toList (t.length + 1) h hlen, mk_toList,
    square_sub_c_plain t.toList (t.length + 1) h hlen]
  exact mk_toList t

/-- One character-family pass of `_x_o_n`'s literal replaces is the
identity on plain strings. -/
theorem xon_char_replaces_plain (t ch : String) (h : plainStr t) :
    xon_char_replaces t ch = t := by
  have h1 : ∀ pre suf : String, patHeadOk pre = true →
      patHeadOk (pre ++ ch ++ suf) = true := by
    intro pre suf hpre
    unfold patHeadOk at hpre ⊢
    rcases hpredata : pre.toList with _ | ⟨p, ps⟩
    · rw [hpredata] at hpre
      cases hpre
    · have : (pre ++ ch ++ suf).toList = p :: (ps ++ ch.toList ++ suf.toList) := by
        show (pre ++ ch ++ suf).data = _
        rw [String.data_append, String.data_append]
        have : pre.data = p :: ps := hpredata
        rw [this]
        simp
      rw [this]
      rw [hpredata] at hpre
      exact hpre
  unfold xon_char_replaces
  dsimp only
  rw [pyReplace_plain_id t _ _ (h1 "(" ")" (by decide)) h,
    pyReplace_plain_id t _ _ (h1 "[" "]" (by decide)) h,
    pyReplace_plain_id t _ _ (h1 "(" ")" (by decide)) h,
    pyReplace_plain_id t _ _ (h1 "[" "]" (by decide)) h,
    pyReplace_plain_id t _ _ (h1 "-" "-" (by decide)) h,
    pyReplace_plain_id t _ _ (h1 " " "-" (by decide)) h,
    pyReplace_plain_id t _ _ (h1 "-" " " (by decide)) h,
    pyReplace_plain_id t _ _ (h1 " " " " (by decide)) h,
    pyReplace_plain_id t _ _ (h1 "\n" " " (by decide)) h,
    pyReplace_plain_id t _ _ (h1 " " "\n" (by decide)) h,
    pyReplace_plain_id t _ _ (h1 " " "$" (by decide)) h,
    pyReplace_plain_id t _ _ (h1 "-" "$" (by decide)) h,
    pyReplace_plain_id t _ _ (h1 MISSING_TOK " " (by decide)) h,
    pyReplace_plain_id t _ _ (h1 MISSING_TOK "-" (by decide)) h,
    pyReplace_plain_id t _ _ (h1 " " MISSING_TOK (by decide)) h,
    pyReplace_plain_id t _ _ (h1 "-" MISSING_TOK (by decide)) h]

/-- An id-conditional replace with a non-plain pattern head is the identity
on plain strings. -/
theorem ite_pyReplace_plain_id (P : Prop) [Decidable P] (t pat rep : String)
    (hp : patHeadOk pat = true) (h : plainStr t) :
    (if P then pyReplace t pat rep else t) = t := by
  split
  · exact pyReplace_plain_id t pat rep hp h
  · rfl

/-- `_x_o_n` is the identity on plain strings. -/
theorem x_o_n_plain (id t : String) (h : plainStr t) : x_o_n id t = t := by
  unfold x_o_n
  dsimp only
  rw [xon_regex_plain t.toList (t.length + 1) h (Nat.le_succ _), mk_toList]
  rw [show ["x", "o", "n", "X", "O", "N"].foldl xon_char_replaces t =
      xon_char_replaces (xon_char_replaces (xon_char_replaces
        (xon_char_replaces (xon_char_replaces (xon_char_replaces t "x") "o")
          "n") "X") "O") "N" from rfl]
  rw [xon_char_replaces_plain t "x" h, xon_char_replaces_plain t "o" h,
    xon_char_replaces_plain t "n" h, xon_char_replaces_plain t "X" h,
    xon_char_replaces_plain t "O" h, xon_char_replaces_plain t "N" h]
  rw [ite_pyReplace_plain_id (id = "P010855") t "x:ur" _ (by decide) h,
    ite_pyReplace_plain_id (id = "P278368") t "-x/EREN" _ (by decide) h,
    ite_pyReplace_plain_id (id = "P323466") t "|3xAN|" _ (by decide) h,
    ite_pyReplace_plain_id (id = "P467714") t "x)" _ (by decide) h]

/-- `dollar_signs` is the identity on plain strings. -/
theorem dollar_signs_plain (t : String) (h : plainStr t) :
    dollar_signs t = t := by
  unfold dollar_signs
  rw [show (["$ traces $", "($erasure$)", "$erasure$", "$AN", "$MU", "$UŠ",
      "$KID", "$DI", "$GA₂", "$HAR"].foldl
        (fun s p => pyReplace s p MISSING_TOK) t) =
      pyReplace (pyReplace (pyReplace (pyReplace (pyReplace (pyReplace
        (pyReplace (pyReplace (pyReplace (pyReplace t
          "$ traces $" MISSING_TOK) "($erasure$)" MISSING_TOK)
          "$erasure$" MISSING_TOK) "$AN" MISSING_TOK) "$MU" MISSING_TOK)
          "$UŠ" MISSING_TOK) "$KID" MISSING_TOK) "$DI" MISSING_TOK)
          "$GA₂" MISSING_TOK) "$HAR" MISSING_TOK from rfl]
  rw [pyReplace_plain_id t "$ traces $" _ (by decide) h,
    pyReplace_plain_id t "($erasure$)" _ (by decide) h,
    pyReplace_plain_id t "$erasure$" _ (by decide) h,
    pyReplace_plain_id t "$AN" _ (by decide) h,
    pyReplace_plain_id t "$MU" _ (by decide) h,
    pyReplace_plain_id t "$UŠ" _ (by decide) h,
    pyReplace_plain_id t "$KID" _ (by decide) h,
    pyReplace_plain_id t "$DI" _ (by decide) h,
    pyReplace_plain_id t "$GA₂" _ (by decide) h,
    pyReplace_plain_id t "$HAR" _ (by decide) h]

/-- `ellipses` is the identity on plain strings. -/
theorem ellipses_plain (t : String) (h : plainStr t) : ellipses t = t :=
  pyReplace_plain_id t "..." MISSING_TOK (by decide) h

/-- `standalone_parens` is the identity on plain strings. -/
theorem standalone_parens_plain (t : String) (h : plainStr t) :
    standalone_parens t = t := by
  unfold standalone_parens
  rw [standalone_parens_find_plain t.toList (t.length + 1) true h]
  rfl

/-- `missing_alone_in_enclosure` is the identity on plain strings. -/
theorem missing_alone_in_enclosure_plain (t : String) (h : plainStr t) :
    missing_alone_in_enclosure t = t := by
  have hlen : t.toList.length ≤ t.length + 1 := Nat.le_succ _
  unfold missing_alone_in_enclosure
  dsimp only
  rw [missing_enclosure_plain '(' ')' (by decide) t.toList (t.length + 1) h
      hlen, mk_toList,
    missing_enclosure_plain '\x7b' '\x7d' (by decide) t.toList (t.length + 1)
      h hlen]
  exact mk_toList t

/-- `empty_enclosures` is the identity on plain strings. -/
theorem empty_enclosures_plain (t : String) (h : plainStr t) :
    empty_enclosures t = t := by
  unfold empty_enclosures
  rw [pyReplace_plain_id t "\x7b\x7d" _ (by decide) h,
    pyReplace_plain_id t "()" _ (by decide) h]

/-- `convert_special_tokens` is the identity on plain strings. -/
theorem convert_special_tokens_plain (t : String) (h : plainStr t) :
    convert_special_tokens t = t := by
  unfold convert_special_tokens
  dsimp only
  rw [pyReplace_plain_id t "#MISSING#" _ (by decide) h,
    pyReplace_plain_id t "#SURFACE#" _ (by decide) h,
    pyReplace_plain_id t "#COLUMN#" _ (by decide) h,
    pyReplace_plain_id t "#BLANK_SPACE#" _ (by decide) h,
    pyReplace_plain_id t "#RULING#" _ (by decide) h,
    pyReplace_plain_id t "\n" _ (by decide) h]

/-- The whole normalizer is the identity on plain strings. -/
theorem clean_up_plain (id t : String) (h : plainStr t) :
    clean_up_transliteration id t = t := by
  unfold clean_up_transliteration
  unfold sanity_check_1 sanity_check_2 sanity_check_3 sanity_check_final
  dsimp only
  rw [double_angle_brackets_plain t h, upper_brackets_plain t h,
    double_curly_braces_plain t h, collapse_plain t h,
    check_for_unmatched_brackets_plain id t h,
    fix_enclosure_order_plain id t h, single_angle_brackets_plain t h,
    semicolons_plain t h, single_curly_braces_plain t h,
    vertical_bars_plain t h, parentheses_plain t h, collapse_plain t h,
    single_square_brackets_plain t h, x_o_n_plain id t h, x_o_n_plain id t h,
    x_o_n_plain id t h, dollar_signs_plain t h, ellipses_plain t h,
    standalone_parens_plain t h, collapse_plain t h,
    missing_alone_in_enclosure_plain t h, empty_enclosures_plain t h,
    collapse_plain t h, convert_special_tokens_plain t h]

/-- Claim C3 (amended): the phase sequence is idempotent on records whose
normalized output consists solely of plain sign-text characters — on such
an output every phase is the identity, so a second application changes
nothing.  (In general the sequence is not idempotent; see the
counterexample.) -/
theorem normalizer_idempotent_on_plain (id t : String)
    (h : ∀ c ∈ (clean_up_transliteration id t).toList, plainChar c = true) :
    clean_up_transliteration id (clean_up_transliteration id t) =
      clean_up_transliteration id t :=
  clean_up_plain id (clean_up_transliteration id t) h

/-- Witness for C3 (amended): `lugal` normalizes to itself, and the second
application changes nothing. -/
theorem normalizer_idempotent_on_plain_witness :
    clean_up_transliteration "P1" (clean_up_transliteration "P1" "lugal") =
      clean_up_transliteration "P1" "lugal" :=
  normalizer_idempotent_on_plain "P1" "lugal" (by decide)

/-- Claim C7 counterexample: for the wordform `zzz-ta` (with `zzz`
unresolvable and `ta` resolving to sign name `TA` with a usable glyph), the
record's output sign names are `<unk> TA`, but the output transliteration
is not `<unk>-ta`: `main`'s postprocessing rewrites `<unk>-` to `<unk> `. -/
theorem unk_wordform_counterexample :
    (script5_row exTables "zzz-ta").2.1 = "<unk> TA" ∧
    (script5_row exTables "zzz-ta").1 ≠ "<unk>-ta" := by
  constructor
  · decide
  · decide

/-- Helper: the glyph-building loop turns an already-unresolved pair into
the fully unknown triple and moves on. -/
theorem glyph_stage_cons_unk (t : Tables) (rest : List (String × String)) :
    glyph_stage t ((UNK, UNK) :: rest) = (UNK, UNK, UNK) :: glyph_stage t rest := by
  conv_lhs => unfold glyph_stage
  dsimp only
  rw [if_neg (by decide : ¬(UNK : String) = "N"), if_pos rfl]

/-- Helper: the glyph-building loop keeps an accepted pair whose sign name
is not `N`, not swapped, not special, and whose glyph lookup yields a
non-empty, non-unknown glyph without the placeholder `X`. -/
theorem glyph_stage_cons_resolved (t : Tables) (rest : List (String × String))
    (m gn u : String) (hm : m ≠ UNK) (hgn : gn ≠ "N")
    (hsw : lookupA SWAP_GLYPH_NAMES gn = none)
    (hns : SPECIAL_TOKENS.contains gn = false)
    (hu : lookupA t.glyph_name_to_unicode gn = some u) (hne : u ≠ "")
    (hnu : u ≠ UNK) (hx : u.toList.contains 'X' = false) :
    glyph_stage t ((m, gn) :: rest) = (m, gn, u) :: glyph_stage t rest := by
  conv_lhs => unfold glyph_stage
  dsimp only
  rw [if_neg hgn]
  have hswap : swap_glyph_name gn = gn := by
    unfold swap_glyph_name
    rw [hsw]
  rw [hswap, if_neg hm]
  have hul : glyph_name_to_unicode t gn = u := by
    unfold glyph_name_to_unicode
    rw [hns]
    simp only [Bool.false_eq_true, if_false]
    rw [hu]
    dsimp only
    rw [if_neg hne]
  rw [hul]
  have hcond : ¬ ((decide (u = UNK) || u.toList.contains 'X') = true) := by
    simp [hnu]
    show ¬ 'X' ∈ u.toList
    simpa using hx
  rw [if_neg hcond]

/-- Helper: a morpheme `zzz` with no reading entry and no glyph-name match
yields an empty candidate list. -/
theorem morpheme_zzz_unresolved (t : Tables)
    (h2 : lookupA t.reading_to_glyph_name "zzz" = none)
    (h3 : (glyph_names t).contains "zzz" = false) :
    get_morpheme_glyph_names t "zzz" = ("zzz", []) := by
  unfold get_morpheme_glyph_names
  dsimp only
  rw [if_neg (by decide : ¬("zzz" : String) = "geš₂"), if_neg (by decide),
    if_neg (by decide), h3, if_neg (by decide),
    show stripBraces "zzz" = "zzz" from by decide, h2,
    if_neg (by decide), if_neg (by decide)]

/-- Helper: a morpheme `ta` whose reading entry is the singleton `["TA"]`
yields exactly that candidate list. -/
theorem morpheme_ta_resolved (t : Tables)
    (h1 : lookupA t.reading_to_glyph_name "ta" = some ["TA"])
    (h4 : (glyph_names t).contains "ta" = false) :
    get_morpheme_glyph_names t "ta" = ("ta", ["TA"]) := by
  unfold get_morpheme_glyph_names
  dsimp only
  rw [if_neg (by decide : ¬("ta" : String) = "geš₂"), if_neg (by decide),
    if_neg (by decide), h4, if_neg (by decide),
    show stripBraces "ta" = "ta" from by decide, h1]

/-- Helper: per-wordform resolution of `zzz-ta` under any sign table where
`zzz` is unresolvable and `ta` resolves to `TA` with a usable glyph `u`. -/
theorem wordform_zzz_ta (t : Tables) (u : String)
    (h1 : lookupA t.reading_to_glyph_name "ta" = some ["TA"])
    (h2 : lookupA t.reading_to_glyph_name "zzz" = none)
    (h3 : (glyph_names t).contains "zzz" = false)
    (h4 : (glyph_names t).contains "ta" = false)
    (h5 : lookupA t.glyph_name_to_unicode "TA" = some u)
    (h6 : u ≠ "") (h8 : u ≠ UNK)
    (h7 : u.toList.contains 'X' = false) :
    get_wordform_glyph_data t "zzz-ta" = [(UNK, UNK, UNK), ("ta", "TA", u)] := by
  unfold get_wordform_glyph_data
  rw [if_neg (by decide)]
  dsimp only
  rw [show split_wordform_into_morphemes "zzz-ta" = ["zzz", "ta"] from by decide]
  simp only [List.map_cons, List.map_nil]
  rw [morpheme_zzz_unresolved t h2 h3, morpheme_ta_resolved t h1 h4]
  dsimp only
  rw [show accept_morpheme "zzz" [] = (UNK, UNK) from by decide]
  rw [show accept_morpheme "ta" ["TA"] = ("ta", "TA") from by decide]
  rw [glyph_stage_cons_unk]
  rw [glyph_stage_cons_resolved t [] "ta" "TA" u (by decide) (by decide)
    (by decide) (by decide) h5 h6 h8 h7]
  rfl

/-- Helper: the row-level transliteration and sign-name strings produced
for the single wordform `zzz-ta`, before `main`'s postprocessing. -/
theorem add_glyphs_zzz_ta (t : Tables) (u : String)
    (h1 : lookupA t.reading_to_glyph_name "ta" = some ["TA"])
    (h2 : lookupA t.reading_to_glyph_name "zzz" = none)
    (h3 : (glyph_names t).contains "zzz" = false)
    (h4 : (glyph_names t).contains "ta" = false)
    (h5 : lookupA t.glyph_name_to_unicode "TA" = some u)
    (h6 : u ≠ "") (h8 : u ≠ UNK)
    (h7 : u.toList.contains 'X' = false) :
    (add_glyphs_to_row t "zzz-ta").1 = "<unk>-ta" ∧
      (add_glyphs_to_row t "zzz-ta").2.1 = "<unk> TA" := by
  unfold add_glyphs_to_row
  dsimp only
  rw [show collapse_spaces (pyReplace (pyReplace "zzz-ta" "\n" " \n ") "..." " ... ") = "zzz-ta" from by decide]
  rw [show ((splitCharL ' ' ("zzz-ta" : String).toList).map (fun l => (⟨l⟩ : String))).filter (fun wf => wf ≠ "" && wf ≠ "|" && wf ≠ ".|") = ["zzz-ta"] from by decide]
  simp only [List.map_cons, List.map_nil]
  rw [wordform_zzz_ta t u h1 h2 h3 h4 h5 h6 h8 h7]
  simp only [List.map_cons, List.map_nil]
  constructor
  · decide
  · decide

/-- Claim C7 amended: for the wordform `zzz-ta` under any sign table where
`ta` resolves to the single sign name `TA` with a usable glyph (present,
non-empty, not the unknown token, no placeholder `X`) and `zzz` is
unresolvable (no reading entry, not itself a glyph name), the record's
output has sign names `<unk> TA` and transliteration `<unk> ta` — the
hyphen adjacent to the unknown token is turned into a space by the
postprocessing of `main`. -/
theorem unk_wordform_output (t : Tables) (u : String)
    (h1 : lookupA t.reading_to_glyph_name "ta" = some ["TA"])
    (h2 : lookupA t.reading_to_glyph_name "zzz" = none)
    (h3 : (glyph_names t).contains "zzz" = false)
    (h4 : (glyph_names t).contains "ta" = false)
    (h5 : lookupA t.glyph_name_to_unicode "TA" = some u)
    (h6 : u ≠ "") (h8 : u ≠ UNK)
    (h7 : u.toList.contains 'X' = false) :
    (script5_row t "zzz-ta").1 = "<unk> ta" ∧
      (script5_row t "zzz-ta").2.1 = "<unk> TA" := by
  have hrow := add_glyphs_zzz_ta t u h1 h2 h3 h4 h5 h6 h8 h7
  unfold script5_row
  dsimp only
  rw [show apply_all_replacements "zzz-ta" = "zzz-ta" from by decide]
  rw [hrow.1, hrow.2]
  unfold main_postprocess
  dsimp only
  constructor
  · decide
  · decide

/-- Witness for C7 (amended): the example table resolves `ta` to `TA` with
glyph `𒋫`, leaves `zzz` unresolved, and the record output is
(`<unk> ta`, `<unk> TA`). -/
theorem unk_wordform_output_witness :
    (script5_row exTables "zzz-ta").1 = "<unk> ta" ∧
      (script5_row exTables "zzz-ta").2.1 = "<unk> TA" :=
  unk_wordform_output exTables "𒋫" (by decide) (by decide) (by decide)
    (by decide) (by decide) (by decide) (by decide) (by decide)

/-- Claim C6 counterexample: a record whose marker-stripped transliteration
is non-empty is nevertheless dropped from the final output when an earlier
record has the same transliteration (the glyph script deduplicates). -/
theorem duplicate_record_dropped :
    without_special_tokens "ta" ≠ "" ∧
    (⟨"B", "ta"⟩ : Row) ∈ [(⟨"A", "ta"⟩ : Row), ⟨"B", "ta"⟩] ∧
    "B" ∉ (final_record_pipeline exTables
      [⟨"A", "ta"⟩, ⟨"B", "ta"⟩]).map Row5.id := by
  refine ⟨by decide, by decide, by decide⟩

/-- Helper for C6: full characterization of pandas-style
`drop_duplicates`. -/
theorem drop_duplicates_spec {α : Type} (key : α → String) :
    ∀ (seen : List String) (rows : List α),
      (drop_duplicates_by key seen rows).Sublist rows ∧
      (∀ r ∈ rows, key r ∈ seen ∨
        key r ∈ (drop_duplicates_by key seen rows).map key) ∧
      ((drop_duplicates_by key seen rows).map key).Nodup ∧
      (∀ r ∈ drop_duplicates_by key seen rows, key r ∉ seen) := by
  intro seen rows
  induction rows generalizing seen with
  | nil => simp [drop_duplicates_by]
  | cons r rest ih =>
    by_cases h : seen.contains (key r) = true
    · have hmem : key r ∈ seen := by
        simpa using h
      have hdef : drop_duplicates_by key seen (r :: rest) =
          drop_duplicates_by key seen rest := by
        simp only [drop_duplicates_by]
        rw [if_pos h]
      rw [hdef]
      obtain ⟨ih1, ih2, ih3, ih4⟩ := ih seen
      refine ⟨ih1.cons r, ?_, ih3, ih4⟩
      intro r2 hr2
      rcases List.mem_cons.mp hr2 with h2 | h2
      · subst h2
        exact Or.inl hmem
      · exact ih2 r2 h2
    · have hmem : key r ∉ seen := by
        intro hc
        exact h (by simpa using hc)
      have hdef : drop_duplicates_by key seen (r :: rest) =
          r :: drop_duplicates_by key (key r :: seen) rest := by
        simp only [drop_duplicates_by]
        rw [if_neg h]
      rw [hdef]
      obtain ⟨ih1, ih2, ih3, ih4⟩ := ih (key r :: seen)
      refine ⟨ih1.cons₂ r, ?_, ?_, ?_⟩
      · intro r2 hr2
        rcases List.mem_cons.mp hr2 with h2 | h2
        · subst h2
          exact Or.inr (by simp)
        · rcases ih2 r2 h2 with h3 | h3
          · rcases List.mem_cons.mp h3 with h4 | h4
            · exact Or.inr (by simp [h4])
            · exact Or.inl h4
          · exact Or.inr (by simp [h3])
      · rw [List.map_cons, List.nodup_cons]
        refine ⟨?_, ih3⟩
        intro hcon
        rcases List.mem_map.mp hcon with ⟨r2, hr2, hk⟩
        exact ih4 r2 hr2 (by simp [hk])
      · intro r2 hr2
        rcases List.mem_cons.mp hr2 with h2 | h2
        · subst h2
          exact hmem
        · intro hc
          exact ih4 r2 h2 (by simp [hc])

/-- Claim C6 amended: the cleanup script drops a record if and only if its
transliteration stripped of the external special tokens is empty; in
addition, the glyph script deduplicates — each of its two passes keeps a
subsequence of its input in which every transliteration (resp. glyph
string) of the input still occurs exactly once, so later records whose key
equals an earlier record's are removed even when their marker-stripped
transliteration is non-empty. -/
theorem record_drop_semantics :
    (∀ (rows : List Row) (r : Row),
        r ∈ remove_tablets_with_no_transliteration rows ↔
          r ∈ rows ∧ without_special_tokens r.translit ≠ "") ∧
    (∀ rows : List Row5,
        (drop_rows_with_identical_transliterations rows).Sublist rows ∧
        (∀ r ∈ rows, r.translit ∈
          (drop_rows_with_identical_transliterations rows).map
            Row5.translit) ∧
        ((drop_rows_with_identical_transliterations rows).map
          Row5.translit).Nodup) ∧
    (∀ rows : List Row5,
        (drop_rows_with_identical_glyphs rows).Sublist rows ∧
        (∀ r ∈ rows, r.glyphs ∈
          (drop_rows_with_identical_glyphs rows).map Row5.glyphs) ∧
        ((drop_rows_with_identical_glyphs rows).map Row5.glyphs).Nodup) := by
  refine ⟨?_, ?_, ?_⟩
  · intro rows r
    unfold remove_tablets_with_no_transliteration
    rw [List.mem_filter]
    constructor
    · intro ⟨h1, h2⟩
      exact ⟨h1, by simpa using h2⟩
    · intro ⟨h1, h2⟩
      exact ⟨h1, by simpa using h2⟩
  · intro rows
    obtain ⟨h1, h2, h3, _⟩ :=
      drop_duplicates_spec (fun r : Row5 => r.translit) [] rows
    exact ⟨h1, fun r hr => by simpa using h2 r hr, h3⟩
  · intro rows
    obtain ⟨h1, h2, h3, _⟩ :=
      drop_duplicates_spec (fun r : Row5 => r.glyphs) [] rows
    exact ⟨h1, fun r hr => by simpa using h2 r hr, h3⟩

/-- Witness for C6 (amended): a kept record satisfies the filter
characterization, and a duplicated transliteration still occurs once after
deduplication. -/
theorem record_drop_semantics_witness :
    (⟨"A", "ta"⟩ : Row) ∈
      remove_tablets_with_no_transliteration [(⟨"A", "ta"⟩ : Row)] ∧
    "ta" ∈ (drop_rows_with_identical_transliterations
      [(⟨"A", "ta", "TA", "T"⟩ : Row5), ⟨"B", "ta", "TA", "T"⟩]).map
        Row5.translit := by
  constructor
  · exact (record_drop_semantics.1 _ _).mpr ⟨by decide, by decide⟩
  · exact (record_drop_semantics.2.1 _).2.1 ⟨"B", "ta", "TA", "T"⟩ (by decide)

/-- Claim C4 counterexample: the record text `a$b` passes through the whole
normalizer unchanged, survives the empty-transliteration filter, and its
final transliteration still contains the raw marker `$`. -/
theorem token_closure_counterexample :
    clean_up_transliteration "P000002" "a$b" = "a$b" ∧
    without_special_tokens (clean_up_transliteration "P000002" "a$b") ≠ "" ∧
    token_closure_ok (clean_up_transliteration "P000002" "a$b") = false := by
  refine ⟨by decide, by decide, by decide⟩

/-- Claim C4 amended: token closure is monitored, not enforced — the final
sanity check merely flags raw markers, and a record whose normalized text
retains one (here a literal `$`) still survives to the output with the
marker intact. -/
theorem token_closure_not_enforced :
    ∃ id t, without_special_tokens (clean_up_transliteration id t) ≠ "" ∧
      token_closure_ok (clean_up_transliteration id t) = false ∧
      sanity_check_final_flags (clean_up_transliteration id t) = ["$"] := by
  exact ⟨"P000002", "a$b", by decide, by decide, by decide⟩

/-- Claim C3 counterexample: the full phase sequence is not idempotent —
a surface marker becomes `<SURFACE>` on the first pass, and the second
pass's single-angle-bracket phase deletes it. -/
theorem normalizer_not_idempotent :
    clean_up_transliteration "P000001"
        (clean_up_transliteration "P000001" "#SURFACE#\na") ≠
      clean_up_transliteration "P000001" "#SURFACE#\na" := by
  have h1 : clean_up_transliteration "P000001" "#SURFACE#\na" =
      "<SURFACE>\na" := by decide
  rw [h1]
  decide

end SumTablets
